import Mathlib

/-!
# Verification of the u-blox GNSS protocol engine (src/main/ublox.c)

Shallow embedding of the protocol engine of `src/main/ublox.c`:

* the UBX/NMEA stream demultiplexer `proc_byte` (a per-byte state machine over
  `decoder_state`),
* the UBX frame encoder `ubx_encode_send`,
* the field codec `ubx_get_*` / `ubx_put_*` (integer types),
* the message decoders `ubx_decode_rawx` / `ubx_decode_nav_sat`,
* the configuration request path `wait_ack_nak` / `ublox_cfg_gnss`.

Bytes are modelled as `Nat` values; wherever the C code relies on a fixed-width
machine type (`uint8_t`, `uint16_t`, `int8_t`, ...) the embedding applies the
corresponding `% 2^w` reduction / two's-complement reinterpretation explicitly.
The two fixed byte arrays of `decoder_state` are modelled as total functions
`Nat → Nat` with pointwise update, which mirrors stores into the C arrays
(in-bounds behaviour; the separate predicate `payload_write_index_oob` captures
the guard of the payload store branch together with the buffer capacity).
Side effects that leave the engine (dispatching a decoded frame to
`ubx_decode`, handing a finished line to `nmea_decode_string`) are modelled as
an explicit event trace.
-/

set_option maxHeartbeats 2000000
set_option maxRecDepth 4000

/-- `LINE_BUFFER_SIZE` from ublox.c (line 34). -/
def LINE_BUFFER_SIZE : Nat := 256

/-- `UBX_BUFFER_SIZE` from ublox.c (line 35). -/
def UBX_BUFFER_SIZE : Nat := 2000

/-- `CFG_ACK_WAIT_MS` from ublox.c (line 36). -/
def CFG_ACK_WAIT_MS : Nat := 100

/-- The `decoder_state` struct of ublox.c (lines 43-53).  The two fixed-size
byte arrays `line[LINE_BUFFER_SIZE]` and `ubx[UBX_BUFFER_SIZE]` are modelled as
total functions from index to byte value. -/
structure DecoderState where
  line : Nat → Nat
  ubx : Nat → Nat
  line_pos : Nat
  ubx_pos : Nat
  ubx_class : Nat
  ubx_id : Nat
  ubx_ck_a : Nat
  ubx_ck_b : Nat
  ubx_len : Nat

/-- Observable side effects of processing a byte: a completed UBX frame handed
to `ubx_decode` (class, id, and the first `ubx_len` bytes of the frame buffer),
or a completed text line handed to `nmea_decode_string`. -/
inductive Event where
  | dispatch (cls msgId : Nat) (payload : List Nat)
  | nmeaLine (text : List Nat)
deriving DecidableEq

/-- One step of the running Fletcher-style checksum of ublox.c:
`ck_a += byte; ck_b += ck_a;` on `uint8_t` accumulators. -/
def ckStep (p : Nat × Nat) (x : Nat) : Nat × Nat :=
  let a := (p.1 + x) % 256
  (a, (p.2 + a) % 256)

/-- Running the checksum over a byte list from a given accumulator pair. -/
def ckRun (p : Nat × Nat) (bs : List Nat) : Nat × Nat :=
  bs.foldl ckStep p

/-- Running the checksum over a byte list from the reset pair `(0, 0)`. -/
def ckFold (bs : List Nat) : Nat × Nat :=
  ckRun (0, 0) bs

/-- Pointwise store into a byte-array-as-function: `f[k] = v`. -/
def store (f : Nat → Nat) (k v : Nat) : Nat → Nat :=
  fun j => if j = k then v else f j

/-- Storing a whole list of bytes at consecutive indices starting at `k`. -/
def storeList (f : Nat → Nat) (k : Nat) : List Nat → Nat → Nat
  | [] => f
  | x :: xs => storeList (store f k x) (k + 1) xs

/-- The C string handed to `nmea_decode_string`: the line buffer contents up to
(excluding) the first NUL byte, read within the buffer capacity. -/
def lineString (f : Nat → Nat) : List Nat :=
  ((List.range LINE_BUFFER_SIZE).map f).takeWhile (fun b => b ≠ 0)

/-- The UBX branch of `proc_byte` (ublox.c lines 1010-1058): the chain of
parse-position cases.  Returns the updated state and any dispatch event.
The caller (`proc_byte`) implements the `ubx_pos_last` bookkeeping. -/
def ubx_step (s : DecoderState) (ch : Nat) : DecoderState × List Event :=
  if s.ubx_pos = 0 then
    (if ch = 0xB5 then { s with ubx_pos := s.ubx_pos + 1 } else s, [])
  else if s.ubx_pos = 1 then
    (if ch = 0x62 then
      { s with ubx_pos := s.ubx_pos + 1, ubx_ck_a := 0, ubx_ck_b := 0 }
    else s, [])
  else if s.ubx_pos = 2 then
    (let p := ckStep (s.ubx_ck_a, s.ubx_ck_b) ch
     { s with ubx_class := ch, ubx_ck_a := p.1, ubx_ck_b := p.2,
              ubx_pos := s.ubx_pos + 1 }, [])
  else if s.ubx_pos = 3 then
    (let p := ckStep (s.ubx_ck_a, s.ubx_ck_b) ch
     { s with ubx_id := ch, ubx_ck_a := p.1, ubx_ck_b := p.2,
              ubx_pos := s.ubx_pos + 1 }, [])
  else if s.ubx_pos = 4 then
    (let p := ckStep (s.ubx_ck_a, s.ubx_ck_b) ch
     { s with ubx_len := ch, ubx_ck_a := p.1, ubx_ck_b := p.2,
              ubx_pos := s.ubx_pos + 1 }, [])
  else if s.ubx_pos = 5 then
    -- `ubx_len |= ch << 8`: at this position `ubx_len` holds the low byte
    -- (< 256), so the bitwise or of the disjoint byte lanes is addition.
    (let p := ckStep (s.ubx_ck_a, s.ubx_ck_b) ch
     { s with ubx_len := s.ubx_len + 256 * ch, ubx_ck_a := p.1, ubx_ck_b := p.2,
              ubx_pos := s.ubx_pos + 1 }, [])
  else if s.ubx_pos - 6 < s.ubx_len then
    (let p := ckStep (s.ubx_ck_a, s.ubx_ck_b) ch
     { s with ubx := store s.ubx (s.ubx_pos - 6) ch,
              ubx_ck_a := p.1, ubx_ck_b := p.2, ubx_pos := s.ubx_pos + 1 }, [])
  else if s.ubx_pos - 6 = s.ubx_len then
    (if ch = s.ubx_ck_a then { s with ubx_pos := s.ubx_pos + 1 } else s, [])
  else if s.ubx_pos - 6 = s.ubx_len + 1 then
    if ch = s.ubx_ck_b then
      ({ s with ubx_pos := 0 },
       [Event.dispatch s.ubx_class s.ubx_id
          ((List.range s.ubx_len).map s.ubx)])
    else (s, [])
  else (s, [])

/-- The NMEA branch of `proc_byte` (ublox.c lines 1068-1079): append the byte,
wrap the write position at the buffer capacity, and on a trailing line feed
terminate the line, hand it over, and reset the position. -/
def nmea_step (s : DecoderState) (ch : Nat) : DecoderState × List Event :=
  let line1 := store s.line s.line_pos ch
  let lp1 := s.line_pos + 1
  let lp2 := if lp1 = LINE_BUFFER_SIZE then 0 else lp1
  if 0 < lp2 ∧ line1 (lp2 - 1) = 10 then
    let line2 := store line1 lp2 0
    ({ s with line := line2, line_pos := 0 }, [Event.nmeaLine (lineString line2)])
  else
    ({ s with line := line1, line_pos := lp2 }, [])

/-- `proc_byte` (ublox.c lines 1001-1080).  The `uint8_t ch` parameter is
modelled by reducing the argument mod 256.  The byte is first offered to the
UBX parser (only when no partial NMEA line is pending, `line_pos == 0`); if
the UBX parse position did not move, the position is reset and the byte is
offered to the NMEA path. -/
def proc_byte (s : DecoderState) (ch0 : Nat) : DecoderState × List Event :=
  let ch := ch0 % 256
  if s.line_pos = 0 then
    let r := ubx_step s ch
    if s.ubx_pos ≠ r.1.ubx_pos then r
    else
      let n := nmea_step { r.1 with ubx_pos := 0 } ch
      (n.1, r.2 ++ n.2)
  else nmea_step s ch

/-- `reset_decoder_state` (ublox.c lines 1082-1084): memset to all-zero. -/
def reset_decoder_state : DecoderState :=
  ⟨fun _ => 0, fun _ => 0, 0, 0, 0, 0, 0, 0, 0⟩

/-- Feeding a byte list to the demultiplexer one byte at a time (as the
receive task does), collecting the event trace. -/
def run (s : DecoderState) : List Nat → DecoderState × List Event
  | [] => (s, [])
  | ch :: rest =>
    let r := proc_byte s ch
    let r2 := run r.1 rest
    (r2.1, r.2 ++ r2.2)

/-- Whether an event is a frame dispatch. -/
def isDispatch : Event → Bool
  | .dispatch _ _ _ => true
  | .nmeaLine _ => false

/-- Number of frames dispatched in a trace. -/
def numDispatch (evs : List Event) : Nat :=
  (evs.filter isDispatch).length

/-- Whether an event is an NMEA line hand-off. -/
def isNmea : Event → Bool
  | .dispatch _ _ _ => false
  | .nmeaLine _ => true

/-- Number of NMEA line hand-offs in a trace. -/
def numNmea (evs : List Event) : Nat :=
  (evs.filter isNmea).length

/-- The guard of the payload-store branch of `proc_byte` (ublox.c line 1043:
`(ubx_pos - 6) < ubx_len` with the UBX path enabled), together with the
condition that the store index `ubx_pos - 6` falls outside the fixed
`UBX_BUFFER_SIZE`-byte frame buffer: processing one more byte in such a state
performs the store `ubx[ubx_pos - 6] = ch` past the end of the buffer. -/
def payload_write_index_oob (s : DecoderState) : Bool :=
  decide (s.line_pos = 0) && decide (6 ≤ s.ubx_pos) &&
    decide (s.ubx_pos - 6 < s.ubx_len) &&
    decide (UBX_BUFFER_SIZE ≤ s.ubx_pos - 6)

/-- `ubx_encode_send` (ublox.c lines 1124-1164), returning the byte sequence
handed to `ublox_send`.  The `uint8_t` parameters and the `uint8_t` frame
buffer cells are modelled by reducing each stored byte mod 256; `len & 0xFF`
and `(len >> 8) & 0xFF` on the nonnegative `int len` are `% 256` and
`/ 256 % 256`.  The checksum accumulates over class, id, both length bytes and
the payload, exactly as the C loop does. -/
def ubx_encode_send (cls msgId : Nat) (msg : List Nat) : List Nat :=
  let len := msg.length
  let body := [cls % 256, msgId % 256, len % 256, len / 256 % 256] ++
    msg.map (fun b => b % 256)
  let ck := ckFold body
  [0xB5, 0x62] ++ body ++ [ck.1, ck.2]

/-- From the spec (§4.2, §6, and the claim text): the encoder must emit
`0xB5, 0x62, class, id, len&0xFF, (len>>8)&0xFF, payload, ck_a, ck_b` with the
checksum pair accumulated by `ck_a_i = ck_a_{i-1} + byte_i`,
`ck_b_i = ck_b_{i-1} + ck_a_i` (mod 256, from `(0,0)`) over class, id, both
length bytes and the payload, but not the sync bytes. -/
def spec_checksum (bs : List Nat) : Nat × Nat :=
  bs.foldl (fun p b => ((p.1 + b) % 256, (p.2 + (p.1 + b) % 256) % 256)) (0, 0)

/-- From the spec: the frame layout
`0xB5 0x62 <class> <id> <len low> <len high> <payload> <ck_a> <ck_b>`. -/
def spec_encode (cls msgId : Nat) (payload : List Nat) : List Nat :=
  let lo := payload.length % 256
  let hi := payload.length / 256 % 256
  let ck := spec_checksum ([cls, msgId, lo, hi] ++ payload)
  [0xB5, 0x62, cls, msgId, lo, hi] ++ payload ++ [ck.1, ck.2]

/-- Flipping bit `k` of the byte at index `j` of a byte sequence. -/
def flipBit (bs : List Nat) (j k : Nat) : List Nat :=
  bs.set j (bs.getD j 0 ^^^ (1 <<< k))

/-! ## Field codec (ublox.c lines 1726-1870)

Buffers are `List Nat` of byte values; a read `msg[i]` is `msg.getD i 0` and a
write `msg[i] = v` is `msg.set i v`.  The cursor `*ind` is threaded
explicitly.  Multi-byte reads assemble `(hi << 8) | lo` etc.; since buffer
cells are `uint8_t` (< 256), the bitwise or of disjoint byte lanes is written
as `hi * 256 + lo`.  Signed reads reinterpret the unsigned value in two's
complement; signed writes reduce the argument to its two's-complement bit
pattern (`Int.emod` by `2^w` is nonnegative), matching the `uint8_t` casts of
the C stores. -/

/-- `ubx_get_U1`. -/
def ubx_get_U1 (msg : List Nat) (ind : Nat) : Nat × Nat :=
  (msg.getD ind 0, ind + 1)

/-- `ubx_get_I1`: `(int8_t)msg[ind]`. -/
def ubx_get_I1 (msg : List Nat) (ind : Nat) : Int × Nat :=
  (let b := msg.getD ind 0
   if b < 128 then (b : Int) else (b : Int) - 256, ind + 1)

/-- `ubx_get_X1`. -/
def ubx_get_X1 (msg : List Nat) (ind : Nat) : Nat × Nat :=
  (msg.getD ind 0, ind + 1)

/-- `ubx_get_U2`: `(msg[ind+1] << 8) | msg[ind]`. -/
def ubx_get_U2 (msg : List Nat) (ind : Nat) : Nat × Nat :=
  (msg.getD (ind + 1) 0 * 256 + msg.getD ind 0, ind + 2)

/-- `ubx_get_I2`: the 16-bit pattern reinterpreted as `int16_t`. -/
def ubx_get_I2 (msg : List Nat) (ind : Nat) : Int × Nat :=
  (let u := msg.getD (ind + 1) 0 * 256 + msg.getD ind 0
   if u < 32768 then (u : Int) else (u : Int) - 65536, ind + 2)

/-- `ubx_get_X2`. -/
def ubx_get_X2 (msg : List Nat) (ind : Nat) : Nat × Nat :=
  (msg.getD (ind + 1) 0 * 256 + msg.getD ind 0, ind + 2)

/-- `ubx_get_U4`: four bytes, little endian. -/
def ubx_get_U4 (msg : List Nat) (ind : Nat) : Nat × Nat :=
  (msg.getD (ind + 3) 0 * 16777216 + msg.getD (ind + 2) 0 * 65536 +
    msg.getD (ind + 1) 0 * 256 + msg.getD ind 0, ind + 4)

/-- `ubx_get_I4`: the 32-bit pattern reinterpreted as `int32_t`. -/
def ubx_get_I4 (msg : List Nat) (ind : Nat) : Int × Nat :=
  (let u := msg.getD (ind + 3) 0 * 16777216 + msg.getD (ind + 2) 0 * 65536 +
    msg.getD (ind + 1) 0 * 256 + msg.getD ind 0
   if u < 2147483648 then (u : Int) else (u : Int) - 4294967296, ind + 4)

/-- `ubx_get_X4`. -/
def ubx_get_X4 (msg : List Nat) (ind : Nat) : Nat × Nat :=
  (msg.getD (ind + 3) 0 * 16777216 + msg.getD (ind + 2) 0 * 65536 +
    msg.getD (ind + 1) 0 * 256 + msg.getD ind 0, ind + 4)

/-- `ubx_get_R8` read as its raw 64-bit little-endian pattern.  The C code
reinterprets these bits as an IEEE-754 double; the reinterpretation is kept at
the bit-pattern level in this model. -/
def ubx_get_R8_bits (msg : List Nat) (ind : Nat) : Nat × Nat :=
  ((List.range 8).foldr (fun k acc => acc * 256 + msg.getD (ind + k) 0) 0,
   ind + 8)

/-- `ubx_get_R4` read as its raw 32-bit little-endian pattern. -/
def ubx_get_R4_bits (msg : List Nat) (ind : Nat) : Nat × Nat :=
  ((List.range 4).foldr (fun k acc => acc * 256 + msg.getD (ind + k) 0) 0,
   ind + 4)

/-- `ubx_put_U1`: `msg[(*ind)++] = data` with a `uint8_t data` parameter. -/
def ubx_put_U1 (msg : List Nat) (ind : Nat) (data : Nat) : List Nat × Nat :=
  (msg.set ind (data % 256), ind + 1)

/-- `ubx_put_I1`: the `int8_t` argument is stored as its two's-complement
byte. -/
def ubx_put_I1 (msg : List Nat) (ind : Nat) (data : Int) : List Nat × Nat :=
  (msg.set ind (data % 256).toNat, ind + 1)

/-- `ubx_put_X1`. -/
def ubx_put_X1 (msg : List Nat) (ind : Nat) (data : Nat) : List Nat × Nat :=
  (msg.set ind (data % 256), ind + 1)

/-- `ubx_put_U2`: stores `data` and `data >> 8` as bytes (`uint16_t data`). -/
def ubx_put_U2 (msg : List Nat) (ind : Nat) (data : Nat) : List Nat × Nat :=
  (let d := data % 65536
   (msg.set ind (d % 256)).set (ind + 1) (d / 256 % 256), ind + 2)

/-- `ubx_put_I2`: the `int16_t` argument is stored via its two's-complement
16-bit pattern (an arithmetic `>> 8` then `uint8_t` cast equals the high byte
of the pattern). -/
def ubx_put_I2 (msg : List Nat) (ind : Nat) (data : Int) : List Nat × Nat :=
  (let d := (data % 65536).toNat
   (msg.set ind (d % 256)).set (ind + 1) (d / 256 % 256), ind + 2)

/-- `ubx_put_X2`. -/
def ubx_put_X2 (msg : List Nat) (ind : Nat) (data : Nat) : List Nat × Nat :=
  (let d := data % 65536
   (msg.set ind (d % 256)).set (ind + 1) (d / 256 % 256), ind + 2)

/-- `ubx_put_U4`: stores `data`, `data >> 8`, `data >> 16`, `data >> 24` as
bytes (`uint32_t data`). -/
def ubx_put_U4 (msg : List Nat) (ind : Nat) (data : Nat) : List Nat × Nat :=
  (let d := data % 4294967296
   ((((msg.set ind (d % 256)).set (ind + 1) (d / 256 % 256)).set (ind + 2)
     (d / 65536 % 256)).set (ind + 3) (d / 16777216 % 256)), ind + 4)

/-- `ubx_put_I4`: via the two's-complement 32-bit pattern. -/
def ubx_put_I4 (msg : List Nat) (ind : Nat) (data : Int) : List Nat × Nat :=
  (let d := (data % 4294967296).toNat
   ((((msg.set ind (d % 256)).set (ind + 1) (d / 256 % 256)).set (ind + 2)
     (d / 65536 % 256)).set (ind + 3) (d / 16777216 % 256)), ind + 4)

/-- `ubx_put_X4`. -/
def ubx_put_X4 (msg : List Nat) (ind : Nat) (data : Nat) : List Nat × Nat :=
  (let d := data % 4294967296
   ((((msg.set ind (d % 256)).set (ind + 1) (d / 256 % 256)).set (ind + 2)
     (d / 65536 % 256)).set (ind + 3) (d / 16777216 % 256)), ind + 4)

/-! ## Message decoders relevant to the overflow policies
(ublox.c lines 1500-1560 and 1562-1648) -/

/-- One entry of `ubx_rxm_rawx.obs`.  The IEEE-754 fields are kept as raw bit
patterns; flag fields hold the masked byte values the C code stores. -/
structure RawxObs where
  pr_mes : Nat
  cp_mes : Nat
  do_mes : Nat
  gnss_id : Nat
  sv_id : Nat
  freq_id : Nat
  locktime : Nat
  cno : Nat
  pr_stdev : Nat
  cp_stdev : Nat
  do_stdev : Nat
  pr_valid : Nat
  cp_valid : Nat
  half_cyc_valid : Nat
  half_cyc_sub : Nat
deriving DecidableEq

/-- The `ubx_rxm_rawx` record populated by `ubx_decode_rawx`. -/
structure UbxRxmRawx where
  rcv_tow : Nat
  week : Nat
  leaps : Int
  num_meas : Nat
  leap_sec : Nat
  clk_reset : Nat
  obs : List RawxObs
deriving DecidableEq

/-- One iteration of the `ubx_decode_rawx` measurement loop, reading the
32-byte entry starting at cursor `ind`. -/
def rawx_read_one (msg : List Nat) (ind : Nat) : RawxObs :=
  { pr_mes := (ubx_get_R8_bits msg ind).1
    cp_mes := (ubx_get_R8_bits msg (ind + 8)).1
    do_mes := (ubx_get_R4_bits msg (ind + 16)).1
    gnss_id := (ubx_get_U1 msg (ind + 20)).1
    sv_id := (ubx_get_U1 msg (ind + 21)).1
    freq_id := (ubx_get_U1 msg (ind + 23)).1
    locktime := (ubx_get_U2 msg (ind + 24)).1
    cno := (ubx_get_U1 msg (ind + 26)).1
    pr_stdev := (ubx_get_X1 msg (ind + 27)).1 &&& 0x0F
    cp_stdev := (ubx_get_X1 msg (ind + 28)).1 &&& 0x0F
    do_stdev := (ubx_get_X1 msg (ind + 29)).1 &&& 0x0F
    pr_valid := (ubx_get_X1 msg (ind + 30)).1 &&& 0x01
    cp_valid := (ubx_get_X1 msg (ind + 30)).1 &&& 0x02
    half_cyc_valid := (ubx_get_X1 msg (ind + 30)).1 &&& 0x04
    half_cyc_sub := (ubx_get_X1 msg (ind + 30)).1 &&& 0x08 }

/-- The `ubx_decode_rawx` measurement loop: `n` entries from cursor `ind`. -/
def rawx_read_obs (msg : List Nat) : Nat → Nat → List RawxObs
  | 0, _ => []
  | n + 1, ind => rawx_read_one msg ind :: rawx_read_obs msg n (ind + 32)

/-- `ubx_decode_rawx` (ublox.c lines 1500-1545 up to the subscriber call).
Returns `none` when the message is rejected (`num_meas > 40`: a diagnostic is
printed and the function returns early, so no subscriber callback fires), and
`some record` otherwise (the record handed to the `rx_rawx` callback). -/
def ubx_decode_rawx (msg : List Nat) : Option UbxRxmRawx :=
  let rcv_tow := (ubx_get_R8_bits msg 0).1
  let week := (ubx_get_U2 msg 8).1
  let leaps := (ubx_get_I1 msg 10).1
  let num_meas := (ubx_get_U1 msg 11).1
  let flags := (ubx_get_X1 msg 12).1
  if 40 < num_meas then none
  else some
    { rcv_tow := rcv_tow, week := week, leaps := leaps, num_meas := num_meas
      leap_sec := flags &&& 0x01, clk_reset := flags &&& 0x02
      obs := rawx_read_obs msg num_meas 16 }

/-- One entry of `ubx_nav_sat.sats`.  `pr_res` keeps the raw `I2` value; the
C code additionally scales it by the float factor 0.1, which is outside this
integer model. -/
structure UbxNavSatInfo where
  gnss_id : Nat
  sv_id : Nat
  cno : Nat
  elev : Int
  azim : Int
  pr_res_raw : Int
  quality : Nat
  used : Nat
  health : Nat
  diffcorr : Nat
deriving DecidableEq

/-- The `ubx_nav_sat` record populated by `ubx_decode_nav_sat`. -/
structure UbxNavSat where
  i_tow_ms : Nat
  num_sv : Nat
  sats : List UbxNavSatInfo
deriving DecidableEq

/-- One iteration of the `ubx_decode_nav_sat` satellite loop: the 12-byte
entry starting at cursor `ind`. -/
def nav_sat_read_one (msg : List Nat) (ind : Nat) : UbxNavSatInfo :=
  let flags := (ubx_get_X4 msg (ind + 8)).1
  { gnss_id := (ubx_get_U1 msg ind).1
    sv_id := (ubx_get_U1 msg (ind + 1)).1
    cno := (ubx_get_U1 msg (ind + 2)).1
    elev := (ubx_get_I1 msg (ind + 3)).1
    azim := (ubx_get_I2 msg (ind + 4)).1
    pr_res_raw := (ubx_get_I2 msg (ind + 6)).1
    quality := (flags >>> 0) &&& 0x07
    used := (flags >>> 3) &&& 0x01
    health := (flags >>> 4) &&& 0x03
    diffcorr := (flags >>> 6) &&& 0x01 }

/-- The `ubx_decode_nav_sat` satellite loop: `n` entries from cursor `ind`. -/
def nav_sat_read_sats (msg : List Nat) : Nat → Nat → List UbxNavSatInfo
  | 0, _ => []
  | n + 1, ind => nav_sat_read_one msg ind :: nav_sat_read_sats msg n (ind + 12)

/-- `ubx_decode_nav_sat` (ublox.c lines 1562-1594 up to the subscriber call).
The wire satellite count is clamped to 128 before the loop; the resulting
record is always handed to the `rx_nav_sat` callback (if registered). -/
def ubx_decode_nav_sat (msg : List Nat) : UbxNavSat :=
  let i_tow_ms := (ubx_get_U4 msg 0).1
  let num_sv0 := (ubx_get_U1 msg 5).1
  let num_sv := if 128 < num_sv0 then 128 else num_sv0
  { i_tow_ms := i_tow_ms, num_sv := num_sv
    sats := nav_sat_read_sats msg num_sv 8 }

/-! ## Configuration request path (ublox.c lines 845-870 and 1178-1196) -/

/-- Outcome of the blocking semaphore wait inside `wait_ack_nak`: the
semaphore was released by the ACK decode path, by the NAK decode path, or the
timeout elapsed (`xSemaphoreTake` returned `pdFALSE`).  The concurrent
semaphore hand-off is abstracted as this oracle input. -/
inductive WaitOutcome where
  | ack
  | nak
  | timeout
deriving DecidableEq

/-- `wait_ack_nak` (ublox.c lines 1178-1196): 0 when released with
`wait_was_ack`, 1 when released without it, -1 on timeout. -/
def wait_ack_nak (outcome : WaitOutcome) : Int :=
  match outcome with
  | .ack => 0
  | .nak => 1
  | .timeout => -1

/-- One block of the `ubx_cfg_gnss` struct (from ublox.h, which is not in the
repository slice; fields as used by `ublox_cfg_gnss`). -/
structure UbxCfgGnssBlock where
  gnss_id : Nat
  en : Bool
  minTrkCh : Nat
  maxTrkCh : Nat
  flags : Nat
deriving DecidableEq

/-- The `ubx_cfg_gnss` struct as used by `ublox_cfg_gnss`. -/
structure UbxCfgGnss where
  num_ch_hw : Nat
  num_ch_use : Nat
  num_blocks : Nat
  blocks : List UbxCfgGnssBlock
deriving DecidableEq

/-- Return value of `ublox_cfg_gnss` (ublox.c lines 845-870): `-2` without
sending anything when `num_blocks > 10`, otherwise the payload is encoded,
sent, and the result of `wait_ack_nak(CFG_ACK_WAIT_MS)` is returned.  The
transport write is not part of the return-value model; the semaphore wait is
the `outcome` oracle. -/
def ublox_cfg_gnss (gnss : UbxCfgGnss) (outcome : WaitOutcome) : Int :=
  if 10 < gnss.num_blocks then -2
  else wait_ack_nak outcome

/-- Return value of `ublox_cfg_rate` (ublox.c lines 679-689), representative
of every other request builder: each assembles its payload, sends it, and
returns `wait_ack_nak(CFG_ACK_WAIT_MS)` unconditionally. -/
def ublox_cfg_rate (meas_rate_ms nav_rate_ms time_ref : Nat)
    (outcome : WaitOutcome) : Int :=
  let _ := (meas_rate_ms % 65536, nav_rate_ms % 65536, time_ref % 65536)
  wait_ack_nak outcome

/-! ## Helper lemmas -/

lemma getD_set_self (l : List Nat) (i a : Nat) (h : i < l.length) :
    (l.set i a).getD i 0 = a := by
  induction l generalizing i with
  | nil => simp at h
  | cons x xs ih =>
    cases i with
    | zero => rfl
    | succ n =>
      simp only [List.set_cons_succ, List.getD_cons_succ]
      exact ih n (by simpa using h)

lemma getD_set_other (l : List Nat) (i j a : Nat) (h : i ≠ j) :
    (l.set i a).getD j 0 = l.getD j 0 := by
  induction l generalizing i j with
  | nil => rfl
  | cons x xs ih =>
    cases i with
    | zero =>
      cases j with
      | zero => exact absurd rfl h
      | succ m => rfl
    | succ n =>
      cases j with
      | zero => rfl
      | succ m =>
        simp only [List.set_cons_succ, List.getD_cons_succ]
        exact ih n m (by omega)

lemma put1_facts (msg : List Nat) (ind b : Nat) (h : ind + 1 ≤ msg.length) :
    (msg.set ind b).length = msg.length ∧
    (msg.set ind b).getD ind 0 = b ∧
    ∀ j, j < ind ∨ ind + 1 ≤ j → (msg.set ind b).getD j 0 = msg.getD j 0 := by
  refine ⟨List.length_set msg ind b, getD_set_self msg ind b (by omega), ?_⟩
  intro j hj
  exact getD_set_other msg ind j b (by omega)

lemma put2_facts (msg : List Nat) (ind b0 b1 : Nat) (h : ind + 2 ≤ msg.length) :
    ((msg.set ind b0).set (ind + 1) b1).length = msg.length ∧
    ((msg.set ind b0).set (ind + 1) b1).getD ind 0 = b0 ∧
    ((msg.set ind b0).set (ind + 1) b1).getD (ind + 1) 0 = b1 ∧
    ∀ j, j < ind ∨ ind + 2 ≤ j →
      ((msg.set ind b0).set (ind + 1) b1).getD j 0 = msg.getD j 0 := by
  refine ⟨?_, ?_, ?_, ?_⟩
  · rw [List.length_set, List.length_set]
  · rw [getD_set_other _ _ _ _ (by omega), getD_set_self msg ind b0 (by omega)]
  · exact getD_set_self _ _ _ (by simp [List.length_set]; omega)
  · intro j hj
    rw [getD_set_other _ _ _ _ (by omega), getD_set_other _ _ _ _ (by omega)]

lemma put4_facts (msg : List Nat) (ind b0 b1 b2 b3 : Nat)
    (h : ind + 4 ≤ msg.length) :
    ((((msg.set ind b0).set (ind + 1) b1).set (ind + 2) b2).set (ind + 3)
        b3).length = msg.length ∧
    ((((msg.set ind b0).set (ind + 1) b1).set (ind + 2) b2).set (ind + 3)
        b3).getD ind 0 = b0 ∧
    ((((msg.set ind b0).set (ind + 1) b1).set (ind + 2) b2).set (ind + 3)
        b3).getD (ind + 1) 0 = b1 ∧
    ((((msg.set ind b0).set (ind + 1) b1).set (ind + 2) b2).set (ind + 3)
        b3).getD (ind + 2) 0 = b2 ∧
    ((((msg.set ind b0).set (ind + 1) b1).set (ind + 2) b2).set (ind + 3)
        b3).getD (ind + 3) 0 = b3 ∧
    ∀ j, j < ind ∨ ind + 4 ≤ j →
      ((((msg.set ind b0).set (ind + 1) b1).set (ind + 2) b2).set (ind + 3)
        b3).getD j 0 = msg.getD j 0 := by
  have hl : ∀ (l : List Nat) (i b : Nat), (l.set i b).length = l.length :=
    fun l i b => List.length_set l i b
  refine ⟨by simp [hl], ?_, ?_, ?_, ?_, ?_⟩
  · rw [getD_set_other _ _ _ _ (by omega), getD_set_other _ _ _ _ (by omega),
      getD_set_other _ _ _ _ (by omega), getD_set_self msg ind b0 (by omega)]
  · rw [getD_set_other _ _ _ _ (by omega), getD_set_other _ _ _ _ (by omega),
      getD_set_self _ _ _ (by simp [hl]; omega)]
  · rw [getD_set_other _ _ _ _ (by omega),
      getD_set_self _ _ _ (by simp [hl]; omega)]
  · exact getD_set_self _ _ _ (by simp [hl]; omega)
  · intro j hj
    rw [getD_set_other _ _ _ _ (by omega), getD_set_other _ _ _ _ (by omega),
      getD_set_other _ _ _ _ (by omega), getD_set_other _ _ _ _ (by omega)]

/-! ## C10: field codec put/get roundtrip -/

/-- C10: for every integer field type T in {U1, I1, X1, U2, I2, X2, U4, I4,
X4}, every value v of that type, and every buffer/cursor with at least
sizeof(T) bytes of room, the put operation writes exactly sizeof(T) bytes in
little-endian order (all other positions unchanged) and advances the cursor by
sizeof(T); the get operation at the same starting cursor on the resulting
buffer returns v (two's-complement interpretation for signed types) and
advances the cursor by sizeof(T): get after put is the identity. -/
theorem C10_field_codec_roundtrip :
    (∀ (msg : List Nat) (ind v : Nat), ind + 1 ≤ msg.length → v < 256 →
      (ubx_put_U1 msg ind v).2 = ind + 1 ∧
      (ubx_put_U1 msg ind v).1.length = msg.length ∧
      (ubx_put_U1 msg ind v).1.getD ind 0 = v ∧
      (∀ j, j < ind ∨ ind + 1 ≤ j →
        (ubx_put_U1 msg ind v).1.getD j 0 = msg.getD j 0) ∧
      ubx_get_U1 (ubx_put_U1 msg ind v).1 ind = (v, ind + 1)) ∧
    (∀ (msg : List Nat) (ind : Nat) (v : Int), ind + 1 ≤ msg.length →
      -128 ≤ v → v < 128 →
      (ubx_put_I1 msg ind v).2 = ind + 1 ∧
      (ubx_put_I1 msg ind v).1.length = msg.length ∧
      (ubx_put_I1 msg ind v).1.getD ind 0 = (v % 256).toNat ∧
      (∀ j, j < ind ∨ ind + 1 ≤ j →
        (ubx_put_I1 msg ind v).1.getD j 0 = msg.getD j 0) ∧
      ubx_get_I1 (ubx_put_I1 msg ind v).1 ind = (v, ind + 1)) ∧
    (∀ (msg : List Nat) (ind v : Nat), ind + 1 ≤ msg.length → v < 256 →
      (ubx_put_X1 msg ind v).2 = ind + 1 ∧
      (ubx_put_X1 msg ind v).1.length = msg.length ∧
      (ubx_put_X1 msg ind v).1.getD ind 0 = v ∧
      (∀ j, j < ind ∨ ind + 1 ≤ j →
        (ubx_put_X1 msg ind v).1.getD j 0 = msg.getD j 0) ∧
      ubx_get_X1 (ubx_put_X1 msg ind v).1 ind = (v, ind + 1)) ∧
    (∀ (msg : List Nat) (ind v : Nat), ind + 2 ≤ msg.length → v < 65536 →
      (ubx_put_U2 msg ind v).2 = ind + 2 ∧
      (ubx_put_U2 msg ind v).1.length = msg.length ∧
      (ubx_put_U2 msg ind v).1.getD ind 0 = v % 256 ∧
      (ubx_put_U2 msg ind v).1.getD (ind + 1) 0 = v / 256 % 256 ∧
      (∀ j, j < ind ∨ ind + 2 ≤ j →
        (ubx_put_U2 msg ind v).1.getD j 0 = msg.getD j 0) ∧
      ubx_get_U2 (ubx_put_U2 msg ind v).1 ind = (v, ind + 2)) ∧
    (∀ (msg : List Nat) (ind : Nat) (v : Int), ind + 2 ≤ msg.length →
      -32768 ≤ v → v < 32768 →
      (ubx_put_I2 msg ind v).2 = ind + 2 ∧
      (ubx_put_I2 msg ind v).1.length = msg.length ∧
      (ubx_put_I2 msg ind v).1.getD ind 0 = (v % 65536).toNat % 256 ∧
      (ubx_put_I2 msg ind v).1.getD (ind + 1) 0 = (v % 65536).toNat / 256 % 256 ∧
      (∀ j, j < ind ∨ ind + 2 ≤ j →
        (ubx_put_I2 msg ind v).1.getD j 0 = msg.getD j 0) ∧
      ubx_get_I2 (ubx_put_I2 msg ind v).1 ind = (v, ind + 2)) ∧
    (∀ (msg : List Nat) (ind v : Nat), ind + 2 ≤ msg.length → v < 65536 →
      (ubx_put_X2 msg ind v).2 = ind + 2 ∧
      (ubx_put_X2 msg ind v).1.length = msg.length ∧
      (ubx_put_X2 msg ind v).1.getD ind 0 = v % 256 ∧
      (ubx_put_X2 msg ind v).1.getD (ind + 1) 0 = v / 256 % 256 ∧
      (∀ j, j < ind ∨ ind + 2 ≤ j →
        (ubx_put_X2 msg ind v).1.getD j 0 = msg.getD j 0) ∧
      ubx_get_X2 (ubx_put_X2 msg ind v).1 ind = (v, ind + 2)) ∧
    (∀ (msg : List Nat) (ind v : Nat), ind + 4 ≤ msg.length → v < 4294967296 →
      (ubx_put_U4 msg ind v).2 = ind + 4 ∧
      (ubx_put_U4 msg ind v).1.length = msg.length ∧
      (ubx_put_U4 msg ind v).1.getD ind 0 = v % 256 ∧
      (ubx_put_U4 msg ind v).1.getD (ind + 1) 0 = v / 256 % 256 ∧
      (ubx_put_U4 msg ind v).1.getD (ind + 2) 0 = v / 65536 % 256 ∧
      (ubx_put_U4 msg ind v).1.getD (ind + 3) 0 = v / 16777216 % 256 ∧
      (∀ j, j < ind ∨ ind + 4 ≤ j →
        (ubx_put_U4 msg ind v).1.getD j 0 = msg.getD j 0) ∧
      ubx_get_U4 (ubx_put_U4 msg ind v).1 ind = (v, ind + 4)) ∧
    (∀ (msg : List Nat) (ind : Nat) (v : Int), ind + 4 ≤ msg.length →
      -2147483648 ≤ v → v < 2147483648 →
      (ubx_put_I4 msg ind v).2 = ind + 4 ∧
      (ubx_put_I4 msg ind v).1.length = msg.length ∧
      (ubx_put_I4 msg ind v).1.getD ind 0 = (v % 4294967296).toNat % 256 ∧
      (ubx_put_I4 msg ind v).1.getD (ind + 1) 0 =
        (v % 4294967296).toNat / 256 % 256 ∧
      (ubx_put_I4 msg ind v).1.getD (ind + 2) 0 =
        (v % 4294967296).toNat / 65536 % 256 ∧
      (ubx_put_I4 msg ind v).1.getD (ind + 3) 0 =
        (v % 4294967296).toNat / 16777216 % 256 ∧
      (∀ j, j < ind ∨ ind + 4 ≤ j →
        (ubx_put_I4 msg ind v).1.getD j 0 = msg.getD j 0) ∧
      ubx_get_I4 (ubx_put_I4 msg ind v).1 ind = (v, ind + 4)) ∧
    (∀ (msg : List Nat) (ind v : Nat), ind + 4 ≤ msg.length → v < 4294967296 →
      (ubx_put_X4 msg ind v).2 = ind + 4 ∧
      (ubx_put_X4 msg ind v).1.length = msg.length ∧
      (ubx_put_X4 msg ind v).1.getD ind 0 = v % 256 ∧
      (ubx_put_X4 msg ind v).1.getD (ind + 1) 0 = v / 256 % 256 ∧
      (ubx_put_X4 msg ind v).1.getD (ind + 2) 0 = v / 65536 % 256 ∧
      (ubx_put_X4 msg ind v).1.getD (ind + 3) 0 = v / 16777216 % 256 ∧
      (∀ j, j < ind ∨ ind + 4 ≤ j →
        (ubx_put_X4 msg ind v).1.getD j 0 = msg.getD j 0) ∧
      ubx_get_X4 (ubx_put_X4 msg ind v).1 ind = (v, ind + 4)) := by
  refine ⟨?_, ?_, ?_, ?_, ?_, ?_, ?_, ?_, ?_⟩
  · intro msg ind v hroom hv
    obtain ⟨hL, hGet, hOther⟩ := put1_facts msg ind (v % 256) hroom
    have e1 : (ubx_put_U1 msg ind v).1 = msg.set ind (v % 256) := rfl
    have e3 : ∀ m : List Nat, ubx_get_U1 m ind = (m.getD ind 0, ind + 1) :=
      fun m => rfl
    rw [e1, e3]
    refine ⟨rfl, hL, by rw [hGet]; omega, hOther, ?_⟩
    rw [hGet, Nat.mod_eq_of_lt hv]
  · intro msg ind v hroom h1 h2
    obtain ⟨hL, hGet, hOther⟩ := put1_facts msg ind (v % 256).toNat hroom
    have e1 : (ubx_put_I1 msg ind v).1 = msg.set ind (v % 256).toNat := rfl
    have e3 : ∀ m : List Nat, ubx_get_I1 m ind =
        (if m.getD ind 0 < 128 then (m.getD ind 0 : Int)
         else (m.getD ind 0 : Int) - 256, ind + 1) := fun m => rfl
    rw [e1, e3]
    refine ⟨rfl, hL, hGet, hOther, ?_⟩
    rw [hGet, Prod.mk.injEq]
    refine ⟨?_, rfl⟩
    split_ifs with h <;> omega
  · intro msg ind v hroom hv
    obtain ⟨hL, hGet, hOther⟩ := put1_facts msg ind (v % 256) hroom
    have e1 : (ubx_put_X1 msg ind v).1 = msg.set ind (v % 256) := rfl
    have e3 : ∀ m : List Nat, ubx_get_X1 m ind = (m.getD ind 0, ind + 1) :=
      fun m => rfl
    rw [e1, e3]
    refine ⟨rfl, hL, by rw [hGet]; omega, hOther, ?_⟩
    rw [hGet, Nat.mod_eq_of_lt hv]
  · intro msg ind v hroom hv
    obtain ⟨hL, hG0, hG1, hOther⟩ :=
      put2_facts msg ind (v % 65536 % 256) (v % 65536 / 256 % 256) hroom
    have e1 : (ubx_put_U2 msg ind v).1 =
        (msg.set ind (v % 65536 % 256)).set (ind + 1) (v % 65536 / 256 % 256) :=
      rfl
    have e3 : ∀ m : List Nat, ubx_get_U2 m ind =
        (m.getD (ind + 1) 0 * 256 + m.getD ind 0, ind + 2) := fun m => rfl
    rw [e1, e3]
    refine ⟨rfl, hL, by rw [hG0]; omega, by rw [hG1]; omega, hOther, ?_⟩
    rw [hG0, hG1, Prod.mk.injEq]
    exact ⟨by omega, rfl⟩
  · intro msg ind v hroom h1 h2
    obtain ⟨hL, hG0, hG1, hOther⟩ :=
      put2_facts msg ind ((v % 65536).toNat % 256)
        ((v % 65536).toNat / 256 % 256) hroom
    have e1 : (ubx_put_I2 msg ind v).1 =
        (msg.set ind ((v % 65536).toNat % 256)).set (ind + 1)
          ((v % 65536).toNat / 256 % 256) := rfl
    have e3 : ∀ m : List Nat, ubx_get_I2 m ind =
        (if m.getD (ind + 1) 0 * 256 + m.getD ind 0 < 32768 then
          (m.getD (ind + 1) 0 * 256 + m.getD ind 0 : Int)
         else (m.getD (ind + 1) 0 * 256 + m.getD ind 0 : Int) - 65536,
         ind + 2) := fun m => rfl
    rw [e1, e3]
    refine ⟨rfl, hL, hG0, hG1, hOther, ?_⟩
    rw [hG0, hG1, Prod.mk.injEq]
    refine ⟨?_, rfl⟩
    split_ifs with h <;> omega
  · intro msg ind v hroom hv
    obtain ⟨hL, hG0, hG1, hOther⟩ :=
      put2_facts msg ind (v % 65536 % 256) (v % 65536 / 256 % 256) hroom
    have e1 : (ubx_put_X2 msg ind v).1 =
        (msg.set ind (v % 65536 % 256)).set (ind + 1) (v % 65536 / 256 % 256) :=
      rfl
    have e3 : ∀ m : List Nat, ubx_get_X2 m ind =
        (m.getD (ind + 1) 0 * 256 + m.getD ind 0, ind + 2) := fun m => rfl
    rw [e1, e3]
    refine ⟨rfl, hL, by rw [hG0]; omega, by rw [hG1]; omega, hOther, ?_⟩
    rw [hG0, hG1, Prod.mk.injEq]
    exact ⟨by omega, rfl⟩
  · intro msg ind v hroom hv
    obtain ⟨hL, hG0, hG1, hG2, hG3, hOther⟩ :=
      put4_facts msg ind (v % 4294967296 % 256) (v % 4294967296 / 256 % 256)
        (v % 4294967296 / 65536 % 256) (v % 4294967296 / 16777216 % 256) hroom
    have e1 : (ubx_put_U4 msg ind v).1 =
        (((msg.set ind (v % 4294967296 % 256)).set (ind + 1)
          (v % 4294967296 / 256 % 256)).set (ind + 2)
          (v % 4294967296 / 65536 % 256)).set (ind + 3)
          (v % 4294967296 / 16777216 % 256) := rfl
    have e3 : ∀ m : List Nat, ubx_get_U4 m ind =
        (m.getD (ind + 3) 0 * 16777216 + m.getD (ind + 2) 0 * 65536 +
          m.getD (ind + 1) 0 * 256 + m.getD ind 0, ind + 4) := fun m => rfl
    rw [e1, e3]
    refine ⟨rfl, hL, by rw [hG0]; omega, by rw [hG1]; omega,
      by rw [hG2]; omega, by rw [hG3]; omega, hOther, ?_⟩
    rw [hG0, hG1, hG2, hG3, Prod.mk.injEq]
    exact ⟨by omega, rfl⟩
  · intro msg ind v hroom h1 h2
    obtain ⟨hL, hG0, hG1, hG2, hG3, hOther⟩ :=
      put4_facts msg ind ((v % 4294967296).toNat % 256)
        ((v % 4294967296).toNat / 256 % 256)
        ((v % 4294967296).toNat / 65536 % 256)
        ((v % 4294967296).toNat / 16777216 % 256) hroom
    have e1 : (ubx_put_I4 msg ind v).1 =
        (((msg.set ind ((v % 4294967296).toNat % 256)).set (ind + 1)
          ((v % 4294967296).toNat / 256 % 256)).set (ind + 2)
          ((v % 4294967296).toNat / 65536 % 256)).set (ind + 3)
          ((v % 4294967296).toNat / 16777216 % 256) := rfl
    have e3 : ∀ m : List Nat, ubx_get_I4 m ind =
        (if m.getD (ind + 3) 0 * 16777216 + m.getD (ind + 2) 0 * 65536 +
            m.getD (ind + 1) 0 * 256 + m.getD ind 0 < 2147483648 then
          (m.getD (ind + 3) 0 * 16777216 + m.getD (ind + 2) 0 * 65536 +
            m.getD (ind + 1) 0 * 256 + m.getD ind 0 : Int)
         else (m.getD (ind + 3) 0 * 16777216 + m.getD (ind + 2) 0 * 65536 +
            m.getD (ind + 1) 0 * 256 + m.getD ind 0 : Int) - 4294967296,
         ind + 4) := fun m => rfl
    rw [e1, e3]
    refine ⟨rfl, hL, hG0, hG1, hG2, hG3, hOther, ?_⟩
    rw [hG0, hG1, hG2, hG3, Prod.mk.injEq]
    refine ⟨?_, rfl⟩
    split_ifs with h <;> omega
  · intro msg ind v hroom hv
    obtain ⟨hL, hG0, hG1, hG2, hG3, hOther⟩ :=
      put4_facts msg ind (v % 4294967296 % 256) (v % 4294967296 / 256 % 256)
        (v % 4294967296 / 65536 % 256) (v % 4294967296 / 16777216 % 256) hroom
    have e1 : (ubx_put_X4 msg ind v).1 =
        (((msg.set ind (v % 4294967296 % 256)).set (ind + 1)
          (v % 4294967296 / 256 % 256)).set (ind + 2)
          (v % 4294967296 / 65536 % 256)).set (ind + 3)
          (v % 4294967296 / 16777216 % 256) := rfl
    have e3 : ∀ m : List Nat, ubx_get_X4 m ind =
        (m.getD (ind + 3) 0 * 16777216 + m.getD (ind + 2) 0 * 65536 +
          m.getD (ind + 1) 0 * 256 + m.getD ind 0, ind + 4) := fun m => rfl
    rw [e1, e3]
    refine ⟨rfl, hL, by rw [hG0]; omega, by rw [hG1]; omega,
      by rw [hG2]; omega, by rw [hG3]; omega, hOther, ?_⟩
    rw [hG0, hG1, hG2, hG3, Prod.mk.injEq]
    exact ⟨by omega, rfl⟩

/-- Witness for C10: concrete boundary values (0xC8, -1, 65535, INT16_MIN,
0xDEADBEEF, INT32_MIN, UINT32_MAX) round-trip through the codec. -/
theorem C10_field_codec_roundtrip_witness :
    ubx_get_U1 (ubx_put_U1 [9, 9, 9, 9] 0 200).1 0 = (200, 1) ∧
    ubx_get_I1 (ubx_put_I1 [9, 9, 9, 9] 0 (-1)).1 0 = (-1, 1) ∧
    ubx_get_X1 (ubx_put_X1 [9, 9, 9, 9] 0 171).1 0 = (171, 1) ∧
    ubx_get_U2 (ubx_put_U2 [9, 9, 9, 9] 1 54321).1 1 = (54321, 3) ∧
    ubx_get_I2 (ubx_put_I2 [9, 9, 9, 9] 0 (-32768)).1 0 = (-32768, 2) ∧
    ubx_get_X2 (ubx_put_X2 [9, 9, 9, 9] 0 65535).1 0 = (65535, 2) ∧
    ubx_get_U4 (ubx_put_U4 [9, 9, 9, 9] 0 3735928559).1 0 = (3735928559, 4) ∧
    ubx_get_I4 (ubx_put_I4 [9, 9, 9, 9] 0 (-2147483648)).1 0 =
      (-2147483648, 4) ∧
    ubx_get_X4 (ubx_put_X4 [9, 9, 9, 9] 0 4294967295).1 0 =
      (4294967295, 4) := by
  have h := C10_field_codec_roundtrip
  exact ⟨(h.1 _ 0 200 (by decide) (by decide)).2.2.2.2,
    (h.2.1 _ 0 (-1) (by decide) (by decide) (by decide)).2.2.2.2,
    (h.2.2.1 _ 0 171 (by decide) (by decide)).2.2.2.2,
    (h.2.2.2.1 _ 1 54321 (by decide) (by decide)).2.2.2.2.2,
    (h.2.2.2.2.1 _ 0 (-32768) (by decide) (by decide) (by decide)).2.2.2.2.2,
    (h.2.2.2.2.2.1 _ 0 65535 (by decide) (by decide)).2.2.2.2.2,
    (h.2.2.2.2.2.2.1 _ 0 3735928559 (by decide) (by decide)).2.2.2.2.2.2.2,
    (h.2.2.2.2.2.2.2.1 _ 0 (-2147483648) (by decide) (by decide)
      (by decide)).2.2.2.2.2.2.2,
    (h.2.2.2.2.2.2.2.2 _ 0 4294967295 (by decide) (by decide)).2.2.2.2.2.2.2⟩

/-! ## C1: the frame encoder -/

lemma map_mod_self (l : List Nat) (h : ∀ b ∈ l, b < 256) :
    l.map (fun b => b % 256) = l := by
  induction l with
  | nil => rfl
  | cons x xs ih =>
    simp only [List.map_cons, List.cons.injEq]
    exact ⟨Nat.mod_eq_of_lt (h x (List.mem_cons_self x xs)),
      ih fun b hb => h b (List.mem_cons_of_mem x hb)⟩

/-- C1: for every class byte, id byte and payload of length at most 65535, the
frame encoder emits exactly `0xB5, 0x62, class, id, len&0xFF, (len>>8)&0xFF,
payload, ck_a, ck_b` with the checksum pair accumulated by the spec's
recurrence over class, id, both length bytes and the payload (not the sync
bytes); in particular the class=0x06, id=0x01 message-rate example produces
the stated 16-byte frame, whose checksum over the 12 inner bytes is
(0x1C, 0xEA). -/
theorem C1_encoder_emits_spec_frame :
    (∀ (cls msgId : Nat) (payload : List Nat), cls < 256 → msgId < 256 →
      (∀ b ∈ payload, b < 256) → payload.length ≤ 65535 →
      ubx_encode_send cls msgId payload = spec_encode cls msgId payload) ∧
    ubx_encode_send 0x06 0x01 [0x01, 0x06, 0x01, 0x01, 0x01, 0x01, 0x01, 0x01] =
      [0xB5, 0x62, 0x06, 0x01, 0x08, 0x00, 0x01, 0x06, 0x01, 0x01, 0x01, 0x01,
        0x01, 0x01, 0x1C, 0xEA] ∧
    spec_checksum [0x06, 0x01, 0x08, 0x00, 0x01, 0x06, 0x01, 0x01, 0x01, 0x01,
        0x01, 0x01] = (0x1C, 0xEA) := by
  refine ⟨?_, by decide, by decide⟩
  intro cls msgId payload h1 h2 h3 _
  unfold ubx_encode_send spec_encode
  rw [map_mod_self payload h3, Nat.mod_eq_of_lt h1, Nat.mod_eq_of_lt h2]
  rfl

/-- Witness for C1: the general encoder/spec agreement applied to the
message-rate configuration example. -/
theorem C1_encoder_emits_spec_frame_witness :
    ubx_encode_send 0x06 0x01 [0x01, 0x06, 0x01, 0x01, 0x01, 0x01, 0x01, 0x01] =
      spec_encode 0x06 0x01 [0x01, 0x06, 0x01, 0x01, 0x01, 0x01, 0x01, 0x01] :=
  C1_encoder_emits_spec_frame.1 0x06 0x01 _ (by decide) (by decide) (by decide)
    (by decide)

/-! ## C6: configuration request return values -/

/-- C6 counterexample: `ublox_cfg_gnss` on a block table with 11 blocks
returns -2, which is none of the three claimed values 0 (Ack), 1 (Nak),
-1 (Timeout) — refuting the claim that every request builder returns exactly
one of those three for every input. -/
theorem C6_counterexample_gnss_returns_minus_two :
    ublox_cfg_gnss ⟨32, 255, 11, []⟩ WaitOutcome.ack = -2 ∧
    ¬(ublox_cfg_gnss ⟨32, 255, 11, []⟩ WaitOutcome.ack = 0 ∨
      ublox_cfg_gnss ⟨32, 255, 11, []⟩ WaitOutcome.ack = 1 ∨
      ublox_cfg_gnss ⟨32, 255, 11, []⟩ WaitOutcome.ack = -1) := by
  decide

/-- C6 (amended): `wait_ack_nak` returns exactly 0 on an ACK release, 1 on a
NAK release and -1 on timeout, and every request builder returns that
tri-state unchanged — except `ublox_cfg_gnss`, which additionally returns -2
(without sending) when more than 10 blocks are requested; with at most 10
blocks it also returns the tri-state. -/
theorem C6_tristate_amended :
    (∀ o, wait_ack_nak o = 0 ∨ wait_ack_nak o = 1 ∨ wait_ack_nak o = -1) ∧
    (∀ m n t o, ublox_cfg_rate m n t o = wait_ack_nak o) ∧
    (∀ g o, g.num_blocks ≤ 10 → ublox_cfg_gnss g o = wait_ack_nak o) ∧
    (∀ g o, 10 < g.num_blocks → ublox_cfg_gnss g o = -2) := by
  refine ⟨?_, ?_, ?_, ?_⟩
  · intro o
    cases o <;> simp [wait_ack_nak]
  · intro m n t o
    rfl
  · intro g o h
    unfold ublox_cfg_gnss
    rw [if_neg (by omega)]
  · intro g o h
    unfold ublox_cfg_gnss
    rw [if_pos h]

/-- Witness for C6 (amended): a 4-block request with a NAK outcome returns 1;
an 11-block request returns -2. -/
theorem C6_tristate_amended_witness :
    ublox_cfg_gnss ⟨32, 255, 4, []⟩ WaitOutcome.nak = wait_ack_nak .nak ∧
    ublox_cfg_gnss ⟨32, 255, 11, []⟩ WaitOutcome.nak = -2 :=
  ⟨C6_tristate_amended.2.2.1 ⟨32, 255, 4, []⟩ .nak (by decide),
   C6_tristate_amended.2.2.2 ⟨32, 255, 11, []⟩ .nak (by decide)⟩

/-! ## C7: raw-measurement rejection versus satellite-report clamping -/

/-- C7: a raw-measurement (RXM-RAWX) message whose wire measurement count
(byte 11) exceeds 40 is rejected whole (`none`: diagnostic printed, no
subscriber callback), while any count up to 40 is delivered with exactly the
wire count; a satellite-report (NAV-SAT) message is always delivered, with
its wire satellite count (byte 5) clamped to the record capacity 128 before
the per-entry loop. -/
theorem C7_rawx_reject_navsat_clamp :
    (∀ msg : List Nat, 40 < msg.getD 11 0 → ubx_decode_rawx msg = none) ∧
    (∀ msg : List Nat, msg.getD 11 0 ≤ 40 →
      ∃ r, ubx_decode_rawx msg = some r ∧ r.num_meas = msg.getD 11 0) ∧
    (∀ msg : List Nat,
      (ubx_decode_nav_sat msg).num_sv = min (msg.getD 5 0) 128) := by
  refine ⟨?_, ?_, ?_⟩
  · intro msg h
    unfold ubx_decode_rawx
    rw [if_pos]
    exact h
  · intro msg h
    unfold ubx_decode_rawx
    rw [if_neg (by simp only [ubx_get_U1]; omega)]
    exact ⟨_, rfl, rfl⟩
  · intro msg
    show (if 128 < (ubx_get_U1 msg 5).1 then 128 else (ubx_get_U1 msg 5).1) =
      min (msg.getD 5 0) 128
    simp only [ubx_get_U1]
    split_ifs with h <;> omega

/-- Witness for C7: a message declaring 41 raw measurements is rejected; a
satellite report declaring 128 satellites is delivered with count 128. -/
theorem C7_rawx_reject_navsat_clamp_witness :
    ubx_decode_rawx [0, 0, 0, 0, 0, 0, 0, 0, 0, 0, 0, 41] = none ∧
    (ubx_decode_nav_sat [0, 0, 0, 0, 0, 128]).num_sv = 128 := by
  refine ⟨C7_rawx_reject_navsat_clamp.1 _ (by decide), ?_⟩
  have h := C7_rawx_reject_navsat_clamp.2.2 [0, 0, 0, 0, 0, 128]
  simpa using h

/-! ## Counterexamples and the buffer-overflow witness for the demultiplexer
claims -/

/-- C3 counterexample: with one byte of a partial NMEA line accumulated
(`line_pos = 1`), the UBX parser is at WaitSync1 (`ubx_pos = 0`), yet
processing 0xB5 does NOT advance it (the UBX path is gated on
`line_pos == 0`); the byte is appended to the NMEA line buffer instead. -/
theorem C3_counterexample_partial_line_blocks_sync :
    (run reset_decoder_state [0x41]).1.ubx_pos = 0 ∧
    (run reset_decoder_state [0x41]).1.line_pos = 1 ∧
    (proc_byte (run reset_decoder_state [0x41]).1 0xB5).1.ubx_pos = 0 ∧
    (proc_byte (run reset_decoder_state [0x41]).1 0xB5).1.line_pos = 2 ∧
    (proc_byte (run reset_decoder_state [0x41]).1 0xB5).1.line 1 = 0xB5 := by
  decide

/-- C4 counterexample: feeding the frame prefix B5 62 00 00 00 00 followed by
the wrong checksum byte 0x01 (the accumulated ck_a is 0) aborts to WaitSync1
as claimed, but the mismatching byte IS appended to the NMEA line buffer
(`line_pos = 1`, `line[0] = 1`) — it is not discarded. -/
theorem C4_counterexample_mismatch_byte_reoffered :
    (run reset_decoder_state [0xB5, 0x62, 0, 0, 0, 0, 1]).1.ubx_pos = 0 ∧
    (run reset_decoder_state [0xB5, 0x62, 0, 0, 0, 0, 1]).1.line_pos = 1 ∧
    (run reset_decoder_state [0xB5, 0x62, 0, 0, 0, 0, 1]).1.line 0 = 1 ∧
    (run reset_decoder_state [0xB5, 0x62, 0, 0, 0, 0, 1]).2 = [] := by
  decide

/-- C2 counterexample: the frame B5 62 00 00 00 00 00 00 alone dispatches
exactly one frame, but a corrupted frame (same header, wrong checksum byte
0x01) followed immediately by that valid frame dispatches ZERO frames — the
mismatching byte lands in the NMEA buffer and the valid frame is absorbed by
the NMEA path (zero NMEA callbacks too, as no line feed occurs). -/
theorem C2_counterexample_valid_frame_not_dispatched :
    numDispatch (run reset_decoder_state
      [0xB5, 0x62, 0, 0, 0, 0, 0, 0]).2 = 1 ∧
    numDispatch (run reset_decoder_state
      ([0xB5, 0x62, 0, 0, 0, 0, 1] ++ [0xB5, 0x62, 0, 0, 0, 0, 0, 0])).2 = 0 ∧
    numNmea (run reset_decoder_state
      ([0xB5, 0x62, 0, 0, 0, 0, 1] ++ [0xB5, 0x62, 0, 0, 0, 0, 0, 0])).2
      = 0 := by
  decide

/-- C9 counterexample: flipping bit 2 of byte index 4 (the low length byte,
a position ≥ 2) of the encoded frame for class 0, id 0, payload
[0,0,0,0] yields a byte sequence that DOES dispatch a frame (the shortened
length makes two payload zero bytes match the checksum pair), refuting the
claim that any single-bit modification at byte index 2 or beyond yields no
dispatch. -/
theorem C9_counterexample_length_bit_flip_dispatches :
    flipBit (ubx_encode_send 0 0 [0, 0, 0, 0]) 4 2 =
      [0xB5, 0x62, 0, 0, 0, 0, 0, 0, 0, 0, 4, 24] ∧
    numDispatch (run reset_decoder_state
      (flipBit (ubx_encode_send 0 0 [0, 0, 0, 0]) 4 2)).2 = 1 := by
  decide


/-! ## Demultiplexer step lemmas -/

lemma run_append (xs ys : List Nat) (s : DecoderState) :
    run s (xs ++ ys) =
      ((run (run s xs).1 ys).1, (run s xs).2 ++ (run (run s xs).1 ys).2) := by
  induction xs generalizing s with
  | nil => simp [run]
  | cons x xs ih =>
    simp only [List.cons_append, run, List.append_eq]
    rw [ih]
    simp [List.append_assoc]

lemma numDispatch_append (e1 e2 : List Event) :
    numDispatch (e1 ++ e2) = numDispatch e1 + numDispatch e2 := by
  simp [numDispatch, List.filter_append]

lemma nmea_step_events (s : DecoderState) (ch : Nat) :
    (nmea_step s ch).2 = [] ∨
      ∃ l, (nmea_step s ch).2 = [Event.nmeaLine l] := by
  dsimp only [nmea_step]
  split <;> split <;>
    first
      | exact Or.inr ⟨_, rfl⟩
      | exact Or.inl rfl

lemma numDispatch_nmea_step (s : DecoderState) (ch : Nat) :
    numDispatch (nmea_step s ch).2 = 0 := by
  rcases nmea_step_events s ch with h | ⟨l, h⟩ <;>
    simp [h, numDispatch, isDispatch]

lemma nmea_step_ubx_pos (s : DecoderState) (ch : Nat) :
    (nmea_step s ch).1.ubx_pos = s.ubx_pos := by
  dsimp only [nmea_step]
  split <;> split <;> rfl

lemma ubx_step_at_sync1 (s : DecoderState) (ch : Nat) (h : s.ubx_pos = 0) :
    ubx_step s ch =
      (if ch = 0xB5 then { s with ubx_pos := s.ubx_pos + 1 } else s, []) := by
  dsimp only [ubx_step]
  rw [if_pos h]

lemma proc_byte_no_dispatch_at_sync1 (s : DecoderState) (ch : Nat)
    (h : s.ubx_pos = 0) : numDispatch (proc_byte s ch).2 = 0 := by
  dsimp only [proc_byte]
  split
  · rw [ubx_step_at_sync1 s (ch % 256) h]
    split <;> split <;>
      first
        | rfl
        | exact numDispatch_nmea_step _ _
  · exact numDispatch_nmea_step s _

lemma step_sync1 (L U : Nat → Nat) (c i a b n : Nat) :
    proc_byte ⟨L, U, 0, 0, c, i, a, b, n⟩ 0xB5 =
      (⟨L, U, 0, 1, c, i, a, b, n⟩, []) := rfl

lemma step_sync2 (L U : Nat → Nat) (c i a b n : Nat) :
    proc_byte ⟨L, U, 0, 1, c, i, a, b, n⟩ 0x62 =
      (⟨L, U, 0, 2, c, i, 0, 0, n⟩, []) := rfl

lemma step_class (L U : Nat → Nat) (c i a b n ch : Nat) :
    proc_byte ⟨L, U, 0, 2, c, i, a, b, n⟩ ch =
      (⟨L, U, 0, 3, ch % 256, i, (a + ch % 256) % 256,
        (b + (a + ch % 256) % 256) % 256, n⟩, []) := rfl

lemma step_id (L U : Nat → Nat) (c i a b n ch : Nat) :
    proc_byte ⟨L, U, 0, 3, c, i, a, b, n⟩ ch =
      (⟨L, U, 0, 4, c, ch % 256, (a + ch % 256) % 256,
        (b + (a + ch % 256) % 256) % 256, n⟩, []) := rfl

lemma step_lenlo (L U : Nat → Nat) (c i a b n ch : Nat) :
    proc_byte ⟨L, U, 0, 4, c, i, a, b, n⟩ ch =
      (⟨L, U, 0, 5, c, i, (a + ch % 256) % 256,
        (b + (a + ch % 256) % 256) % 256, ch % 256⟩, []) := rfl

lemma step_lenhi (L U : Nat → Nat) (c i a b n ch : Nat) :
    proc_byte ⟨L, U, 0, 5, c, i, a, b, n⟩ ch =
      (⟨L, U, 0, 6, c, i, (a + ch % 256) % 256,
        (b + (a + ch % 256) % 256) % 256, n + 256 * (ch % 256)⟩, []) := rfl

lemma step_payload (L U : Nat → Nat) (c i a b n k ch : Nat) (hk : k < n) :
    proc_byte ⟨L, U, 0, 6 + k, c, i, a, b, n⟩ ch =
      (⟨L, store U k (ch % 256), 0, 6 + k + 1, c, i, (a + ch % 256) % 256,
        (b + (a + ch % 256) % 256) % 256, n⟩, []) := by
  have h0 : ¬(6 + k = 0) := by omega
  have h1 : ¬(6 + k = 1) := by omega
  have h2 : ¬(6 + k = 2) := by omega
  have h3 : ¬(6 + k = 3) := by omega
  have h4 : ¬(6 + k = 4) := by omega
  have h5 : ¬(6 + k = 5) := by omega
  have h6 : 6 + k - 6 < n := by omega
  have h7 : ¬(6 + k = 6 + k + 1) := by omega
  have h8 : 6 + k - 6 = k := by omega
  simp only [proc_byte, ubx_step, ckStep, h0, h1, h2, h3, h4, h5, h6, h8, hk,
    if_true, if_false, ite_true, ite_false, ne_eq, h7, not_false_eq_true]

lemma step_cka_match (L U : Nat → Nat) (c i a b n : Nat) (ha : a < 256) :
    proc_byte ⟨L, U, 0, 6 + n, c, i, a, b, n⟩ a =
      (⟨L, U, 0, 6 + n + 1, c, i, a, b, n⟩, []) := by
  have e : a % 256 = a := Nat.mod_eq_of_lt ha
  have h0 : ¬(6 + n = 0) := by omega
  have h1 : ¬(6 + n = 1) := by omega
  have h2 : ¬(6 + n = 2) := by omega
  have h3 : ¬(6 + n = 3) := by omega
  have h4 : ¬(6 + n = 4) := by omega
  have h5 : ¬(6 + n = 5) := by omega
  have hlt : ¬(6 + n - 6 < n) := by omega
  have heq : 6 + n - 6 = n := by omega
  have h7 : ¬(6 + n = 6 + n + 1) := by omega
  simp only [proc_byte, ubx_step, ckStep, e, h0, h1, h2, h3, h4, h5, hlt, heq,
    h7, if_true, if_false, ite_true, ite_false, ne_eq, not_false_eq_true,
    eq_self_iff_true, lt_self_iff_false]

lemma step_cka_mismatch (L U : Nat → Nat) (c i a b n ch : Nat) (hch : ch < 256)
    (hne : ch ≠ a) :
    proc_byte ⟨L, U, 0, 6 + n, c, i, a, b, n⟩ ch =
      nmea_step ⟨L, U, 0, 0, c, i, a, b, n⟩ ch := by
  have e : ch % 256 = ch := Nat.mod_eq_of_lt hch
  have h0 : ¬(6 + n = 0) := by omega
  have h1 : ¬(6 + n = 1) := by omega
  have h2 : ¬(6 + n = 2) := by omega
  have h3 : ¬(6 + n = 3) := by omega
  have h4 : ¬(6 + n = 4) := by omega
  have h5 : ¬(6 + n = 5) := by omega
  have hlt : ¬(6 + n - 6 < n) := by omega
  have heq : 6 + n - 6 = n := by omega
  simp only [proc_byte, ubx_step, ckStep, e, h0, h1, h2, h3, h4, h5, hlt, heq,
    hne, if_true, if_false, ite_true, ite_false, ne_eq, not_false_eq_true,
    eq_self_iff_true, not_true, List.nil_append, lt_self_iff_false]

lemma step_ckb_match (L U : Nat → Nat) (c i a b n : Nat) (hb : b < 256) :
    proc_byte ⟨L, U, 0, 6 + n + 1, c, i, a, b, n⟩ b =
      (⟨L, U, 0, 0, c, i, a, b, n⟩,
       [Event.dispatch c i ((List.range n).map U)]) := by
  have e : b % 256 = b := Nat.mod_eq_of_lt hb
  have h0 : ¬(6 + n + 1 = 0) := by omega
  have h1 : ¬(6 + n + 1 = 1) := by omega
  have h2 : ¬(6 + n + 1 = 2) := by omega
  have h3 : ¬(6 + n + 1 = 3) := by omega
  have h4 : ¬(6 + n + 1 = 4) := by omega
  have h5 : ¬(6 + n + 1 = 5) := by omega
  have hlt : ¬(6 + n + 1 - 6 < n) := by omega
  have hne6 : ¬(6 + n + 1 - 6 = n) := by omega
  have heq : 6 + n + 1 - 6 = n + 1 := by omega
  have h7 : ¬(6 + n + 1 = 0) := by omega
  have hlt2 : ¬(n + 1 < n) := by omega
  have hne62 : ¬(n + 1 = n) := by omega
  simp only [proc_byte, ubx_step, ckStep, e, h0, h1, h2, h3, h4, h5, hlt, hne6,
    heq, h7, hlt2, hne62, if_true, if_false, ite_true, ite_false, ne_eq,
    not_false_eq_true, eq_self_iff_true]

lemma step_ckb_mismatch (L U : Nat → Nat) (c i a b n ch : Nat) (hch : ch < 256)
    (hne : ch ≠ b) :
    proc_byte ⟨L, U, 0, 6 + n + 1, c, i, a, b, n⟩ ch =
      nmea_step ⟨L, U, 0, 0, c, i, a, b, n⟩ ch := by
  have e : ch % 256 = ch := Nat.mod_eq_of_lt hch
  have h0 : ¬(6 + n + 1 = 0) := by omega
  have h1 : ¬(6 + n + 1 = 1) := by omega
  have h2 : ¬(6 + n + 1 = 2) := by omega
  have h3 : ¬(6 + n + 1 = 3) := by omega
  have h4 : ¬(6 + n + 1 = 4) := by omega
  have h5 : ¬(6 + n + 1 = 5) := by omega
  have hlt : ¬(6 + n + 1 - 6 < n) := by omega
  have hne6 : ¬(6 + n + 1 - 6 = n) := by omega
  have heq : 6 + n + 1 - 6 = n + 1 := by omega
  have hlt2 : ¬(n + 1 < n) := by omega
  have hne62 : ¬(n + 1 = n) := by omega
  simp only [proc_byte, ubx_step, ckStep, e, h0, h1, h2, h3, h4, h5, hlt, hne6,
    heq, hne, hlt2, hne62, if_true, if_false, ite_true, ite_false, ne_eq,
    not_false_eq_true, eq_self_iff_true, not_true, List.nil_append]

lemma step_sync1_miss (L U : Nat → Nat) (c i a b n ch : Nat) (hch : ch < 256)
    (hne : ch ≠ 0xB5) :
    proc_byte ⟨L, U, 0, 0, c, i, a, b, n⟩ ch =
      nmea_step ⟨L, U, 0, 0, c, i, a, b, n⟩ ch := by
  have e : ch % 256 = ch := Nat.mod_eq_of_lt hch
  simp only [proc_byte, ubx_step, e, hne, if_true, if_false, ite_true,
    ite_false, ne_eq, not_false_eq_true, eq_self_iff_true, not_true,
    List.nil_append]

lemma proc_byte_line_bypass (s : DecoderState) (ch : Nat)
    (h : s.line_pos ≠ 0) : proc_byte s ch = nmea_step s (ch % 256) := by
  dsimp only [proc_byte]
  rw [if_neg h]

lemma nmea_step_plain (s : DecoderState) (ch : Nat) (h10 : ch ≠ 10)
    (hcap : s.line_pos + 1 < 256) :
    nmea_step s ch =
      ({ s with
         line := store s.line s.line_pos ch
         line_pos := s.line_pos + 1 }, []) := by
  dsimp only [nmea_step]
  have hkey : store s.line s.line_pos ch (s.line_pos + 1 - 1) = ch := by
    simp [store]
  rw [if_neg (show ¬(s.line_pos + 1 = LINE_BUFFER_SIZE) by
    simp only [LINE_BUFFER_SIZE]; omega)]
  rw [if_neg fun hx => h10 (hkey ▸ hx.2)]

lemma nmea_step_wrap (s : DecoderState) (ch : Nat)
    (hpos : s.line_pos + 1 = 256) :
    nmea_step s ch =
      ({ s with
         line := store s.line s.line_pos ch
         line_pos := 0 }, []) := by
  dsimp only [nmea_step]
  rw [if_pos (show s.line_pos + 1 = LINE_BUFFER_SIZE from hpos)]
  rw [if_neg (by simp)]

lemma nmea_step_newline (s : DecoderState) (hcap : s.line_pos + 1 < 256) :
    nmea_step s 10 =
      ({ s with
         line := store (store s.line s.line_pos 10) (s.line_pos + 1) 0
         line_pos := 0 },
       [Event.nmeaLine (lineString
         (store (store s.line s.line_pos 10) (s.line_pos + 1) 0))]) := by
  dsimp only [nmea_step]
  rw [if_neg (show ¬(s.line_pos + 1 = LINE_BUFFER_SIZE) by
    simp only [LINE_BUFFER_SIZE]; omega)]
  rw [if_pos (show 0 < s.line_pos + 1 ∧
      store s.line s.line_pos 10 (s.line_pos + 1 - 1) = 10 from
    ⟨by omega, by simp [store]⟩)]

lemma run_header (L U : Nat → Nat) (c i a b n : Nat) :
    run ⟨L, U, 0, 0, c, i, a, b, n⟩ [0xB5, 0x62] =
      (⟨L, U, 0, 2, c, i, 0, 0, n⟩, []) := rfl

lemma run_payload (p : List Nat) :
    ∀ (L U : Nat → Nat) (c i a b n k : Nat), k + p.length ≤ n →
      (∀ x ∈ p, x < 256) →
      run ⟨L, U, 0, 6 + k, c, i, a, b, n⟩ p =
        (⟨L, storeList U k p, 0, 6 + k + p.length, c, i,
          (ckRun (a, b) p).1, (ckRun (a, b) p).2, n⟩, []) := by
  induction p with
  | nil =>
    intro L U c i a b n k _ _
    simp [run, ckRun, storeList]
  | cons x xs ih =>
    intro L U c i a b n k hlen hb
    have hx : x % 256 = x := Nat.mod_eq_of_lt (hb x (List.mem_cons_self x xs))
    have hk : k < n := by
      simp only [List.length_cons] at hlen
      omega
    simp only [run]
    rw [step_payload L U c i a b n k x hk]
    rw [show (6 + k + 1 : Nat) = 6 + (k + 1) from by omega]
    rw [ih L (store U k (x % 256)) c i ((a + x % 256) % 256)
      ((b + (a + x % 256) % 256) % 256) n (k + 1)
      (by simp only [List.length_cons] at hlen; omega)
      (fun y hy => hb y (List.mem_cons_of_mem x hy))]
    rw [hx]
    have hpos : 6 + (k + 1) + xs.length = 6 + k + (x :: xs).length := by
      simp only [List.length_cons]
      omega
    rw [hpos]
    have hck : ckRun ((a + x) % 256, (b + (a + x) % 256) % 256) xs =
        ckRun (a, b) (x :: xs) := by
      simp [ckRun, ckStep]
    rw [hck]
    rfl

lemma ckRun_append (q : Nat × Nat) (l1 l2 : List Nat) :
    ckRun q (l1 ++ l2) = ckRun (ckRun q l1) l2 := by
  simp [ckRun, List.foldl_append]

lemma run_hdr4 (L U : Nat → Nat) (c0 i0 a0 b0 n0 cls msgId lo hi : Nat)
    (hcls : cls < 256) (hid : msgId < 256) (hlo : lo < 256) (hhi : hi < 256) :
    run ⟨L, U, 0, 2, c0, i0, a0, b0, n0⟩ [cls, msgId, lo, hi] =
      (⟨L, U, 0, 6, cls, msgId, (ckRun (a0, b0) [cls, msgId, lo, hi]).1,
        (ckRun (a0, b0) [cls, msgId, lo, hi]).2, lo + 256 * hi⟩, []) := by
  simp only [run, step_class, step_id, step_lenlo, step_lenhi,
    Nat.mod_eq_of_lt hcls, Nat.mod_eq_of_lt hid, Nat.mod_eq_of_lt hlo,
    Nat.mod_eq_of_lt hhi]
  simp [ckRun, ckStep]

lemma run_body (p : List Nat) (L U : Nat → Nat)
    (c0 i0 a0 b0 n0 cls msgId lo hi : Nat)
    (hcls : cls < 256) (hid : msgId < 256) (hlo : lo < 256) (hhi : hi < 256)
    (hp : ∀ x ∈ p, x < 256) (hlen : p.length ≤ lo + 256 * hi) :
    run ⟨L, U, 0, 2, c0, i0, a0, b0, n0⟩ (cls :: msgId :: lo :: hi :: p) =
      (⟨L, storeList U 0 p, 0, 6 + p.length, cls, msgId,
        (ckRun (a0, b0) (cls :: msgId :: lo :: hi :: p)).1,
        (ckRun (a0, b0) (cls :: msgId :: lo :: hi :: p)).2,
        lo + 256 * hi⟩, []) := by
  show run ⟨L, U, 0, 2, c0, i0, a0, b0, n0⟩ ([cls, msgId, lo, hi] ++ p) = _
  rw [run_append, run_hdr4 L U c0 i0 a0 b0 n0 cls msgId lo hi hcls hid hlo hhi]
  have h6 := run_payload p L U cls msgId
    ((ckRun (a0, b0) [cls, msgId, lo, hi]).1)
    ((ckRun (a0, b0) [cls, msgId, lo, hi]).2) (lo + 256 * hi) 0
    (by omega) hp
  simp only [Nat.add_zero] at h6
  rw [h6]
  rw [show (cls :: msgId :: lo :: hi :: p) = [cls, msgId, lo, hi] ++ p from rfl,
    ckRun_append, Prod.mk.eta]
  rfl

lemma run_nmea_absorb (bs : List Nat) :
    ∀ (L U : Nat → Nat) (lp up c i a b n : Nat), 0 < lp →
      lp + bs.length < 256 → (∀ x ∈ bs, x < 256 ∧ x ≠ 10) →
      run ⟨L, U, lp, up, c, i, a, b, n⟩ bs =
        (⟨storeList L lp bs, U, lp + bs.length, up, c, i, a, b, n⟩, []) := by
  induction bs with
  | nil =>
    intro L U lp up c i a b n h1 h2 h3
    simp [run, storeList]
  | cons x xs ih =>
    intro L U lp up c i a b n h1 h2 h3
    have hx : x % 256 = x :=
      Nat.mod_eq_of_lt (h3 x (List.mem_cons_self x xs)).1
    have hx10 : x ≠ 10 := (h3 x (List.mem_cons_self x xs)).2
    simp only [run]
    rw [proc_byte_line_bypass _ x h1.ne', hx]
    rw [nmea_step_plain ⟨L, U, lp, up, c, i, a, b, n⟩ x hx10
      (show lp + 1 < 256 by simp only [List.length_cons] at h2; omega)]
    rw [ih (store L lp x) U (lp + 1) up c i a b n (by omega)
      (by simp only [List.length_cons] at h2; omega)
      (fun y hy => h3 y (List.mem_cons_of_mem x hy))]
    have hlp : lp + 1 + xs.length = lp + (x :: xs).length := by
      simp only [List.length_cons]
      omega
    rw [hlp]
    rfl

lemma ckRun_fst (l : List Nat) :
    ∀ a b : Nat, a < 256 → (ckRun (a, b) l).1 = (a + l.sum) % 256 := by
  induction l with
  | nil =>
    intro a b ha
    simp [ckRun, Nat.mod_eq_of_lt ha]
  | cons x xs ih =>
    intro a b ha
    have step : ckRun (a, b) (x :: xs) =
        ckRun ((a + x) % 256, (b + (a + x) % 256) % 256) xs := by
      simp [ckRun, ckStep]
    rw [step, ih _ _ (Nat.mod_lt _ (by omega))]
    simp only [List.sum_cons]
    omega

lemma ckRun_bounds (l : List Nat) :
    ∀ a b : Nat, a < 256 → b < 256 →
      (ckRun (a, b) l).1 < 256 ∧ (ckRun (a, b) l).2 < 256 := by
  induction l with
  | nil =>
    intro a b ha hb
    exact ⟨ha, hb⟩
  | cons x xs ih =>
    intro a b ha hb
    have step : ckRun (a, b) (x :: xs) =
        ckRun ((a + x) % 256, (b + (a + x) % 256) % 256) xs := by
      simp [ckRun, ckStep]
    rw [step]
    exact ih _ _ (Nat.mod_lt _ (by omega)) (Nat.mod_lt _ (by omega))

lemma sum_set (l : List Nat) :
    ∀ m y : Nat, m < l.length → (l.set m y).sum + l.getD m 0 = l.sum + y := by
  induction l with
  | nil =>
    intro m y hm
    simp at hm
  | cons x xs ih =>
    intro m y hm
    cases m with
    | zero =>
      simp only [List.set_cons_zero, List.sum_cons, List.getD_cons_zero]
      omega
    | succ m' =>
      simp only [List.set_cons_succ, List.sum_cons, List.getD_cons_succ]
      have := ih m' y (by simpa using hm)
      omega

lemma xor_byte_lt : ∀ x : Nat, x < 256 → ∀ k : Nat, k < 8 →
    x ^^^ (1 <<< k) < 256 := by decide

lemma xor_byte_ne : ∀ x : Nat, x < 256 → ∀ k : Nat, k < 8 →
    x ^^^ (1 <<< k) ≠ x := by decide

lemma encode_length (cls msgId : Nat) (p : List Nat) :
    (ubx_encode_send cls msgId p).length = 8 + p.length := by
  simp [ubx_encode_send]
  omega

lemma encode_bytes_lt (cls msgId : Nat) (p : List Nat) :
    ∀ x ∈ ubx_encode_send cls msgId p, x < 256 := by
  intro x hx
  dsimp only [ubx_encode_send] at hx
  simp only [List.cons_append, List.nil_append, List.mem_cons,
    List.mem_append, List.mem_map] at hx
  have hck := ckRun_bounds
    ([cls % 256, msgId % 256, p.length % 256, p.length / 256 % 256] ++
      p.map (fun b => b % 256)) 0 0 (by omega) (by omega)
  rcases hx with h | h | h | h | h | h | h | h
  · omega
  · omega
  · exact h ▸ Nat.mod_lt _ (by omega)
  · exact h ▸ Nat.mod_lt _ (by omega)
  · exact h ▸ Nat.mod_lt _ (by omega)
  · exact h ▸ Nat.mod_lt _ (by omega)
  · obtain ⟨y, _, hy⟩ := h
    exact hy ▸ Nat.mod_lt _ (by omega)
  · rcases h with h | h | h
    · exact h ▸ hck.1
    · exact h ▸ hck.2
    · simp at h

lemma nmea_step_appends (s : DecoderState) (ch : Nat) :
    (nmea_step s ch).1.line s.line_pos = ch := by
  dsimp only [nmea_step]
  split
  · split
    · rename_i hcond
      exact absurd hcond.1 (by omega)
    · simp [store]
  · split
    · simp only [store]
      rw [if_neg (by omega)]
      simp
    · simp [store]

/-! ## C5: the frame-length / buffer-capacity overflow -/

/-- C5: the claimed in-bounds invariant is violated.  Feeding the header
B5 62 00 00 D1 07 (declared length 0x07D1 = 2001 > UBX_BUFFER_SIZE = 2000)
followed by 2000 payload bytes reaches a state in which the payload-store
branch guard `(ubx_pos - 6) < ubx_len` still holds while the write index
`ubx_pos - 6` equals 2000: the next byte is stored past the end of the
2000-byte frame buffer. -/
theorem C5_payload_write_escapes_buffer :
    (run reset_decoder_state
      ([0xB5, 0x62, 0, 0, 0xD1, 0x07] ++ List.replicate 2000 0)).1.ubx_len
      = 2001 ∧
    (run reset_decoder_state
      ([0xB5, 0x62, 0, 0, 0xD1, 0x07] ++ List.replicate 2000 0)).1.ubx_pos
      = 2006 ∧
    payload_write_index_oob (run reset_decoder_state
      ([0xB5, 0x62, 0, 0, 0xD1, 0x07] ++ List.replicate 2000 0)).1 = true := by
  have hsplit : ([0xB5, 0x62, 0, 0, 0xD1, 0x07] : List Nat) ++
      List.replicate 2000 0 =
      [0xB5, 0x62] ++ ((0 : Nat) :: 0 :: 0xD1 :: 0x07 ::
        List.replicate 2000 0) := rfl
  rw [hsplit,
    show reset_decoder_state =
      (⟨fun _ => 0, fun _ => 0, 0, 0, 0, 0, 0, 0, 0⟩ : DecoderState) from rfl,
    run_append, run_header]
  rw [run_body (List.replicate 2000 0) (fun _ => 0) (fun _ => 0) 0 0 0 0 0
    0 0 0xD1 0x07 (by omega) (by omega) (by omega) (by omega)
    (fun x hx => by rw [List.eq_of_mem_replicate hx]; omega)
    (by rw [List.length_replicate]; omega)]
  refine ⟨rfl, ?_, ?_⟩
  · show 6 + (List.replicate (2000 : Nat) (0 : Nat)).length = 2006
    rw [List.length_replicate]
  · show payload_write_index_oob
      ⟨fun _ => 0, storeList (fun _ => 0) 0 (List.replicate 2000 0), 0,
        6 + (List.replicate (2000 : Nat) (0 : Nat)).length, 0, 0, _, _,
        0xD1 + 256 * 0x07⟩ = true
    simp only [payload_write_index_oob, List.length_replicate,
      UBX_BUFFER_SIZE]
    decide

/-! ## C8: the NMEA line path -/

/-- C8 counterexample: 255 ordinary bytes followed by a line feed put the
line feed at the last buffer index (255); the write position wraps to 0
BEFORE the line-feed check, so no NMEA line is handed over (`run` produces no
event), refuting the claim's "including when the line-feed lands at the last
buffer index". -/
theorem C8_counterexample_linefeed_at_last_index_dropped :
    (run reset_decoder_state (List.replicate 255 65 ++ [10])).2 = [] ∧
    (run reset_decoder_state (List.replicate 255 65 ++ [10])).1.line_pos
      = 0 ∧
    (run reset_decoder_state (List.replicate 255 65 ++ [10])).1.line 255
      = 10 := by
  have hsplit : List.replicate 255 (65 : Nat) ++ [10] =
      [65] ++ (List.replicate 254 65 ++ [10]) := rfl
  rw [hsplit,
    show reset_decoder_state =
      (⟨fun _ => 0, fun _ => 0, 0, 0, 0, 0, 0, 0, 0⟩ : DecoderState) from rfl,
    run_append]
  have h1 : run (⟨fun _ => 0, fun _ => 0, 0, 0, 0, 0, 0, 0, 0⟩ : DecoderState)
      [65] =
      (⟨store (fun _ => 0) 0 65, fun _ => 0, 1, 0, 0, 0, 0, 0, 0⟩, []) := by
    simp only [run]
    rw [step_sync1_miss (fun _ => 0) (fun _ => 0) 0 0 0 0 0 65 (by omega)
      (by omega)]
    rw [nmea_step_plain ⟨fun _ => 0, fun _ => 0, 0, 0, 0, 0, 0, 0, 0⟩ 65
      (by omega) (show (0 : Nat) + 1 < 256 by omega)]
    rfl
  rw [h1, run_append]
  rw [run_nmea_absorb (List.replicate 254 65) (store (fun _ => 0) 0 65)
    (fun _ => 0) 1 0 0 0 0 0 0 (by omega)
    (by rw [List.length_replicate]; omega)
    (fun x hx => by rw [List.eq_of_mem_replicate hx]; exact ⟨by omega, by omega⟩)]
  have h255 : (1 : Nat) + (List.replicate (254 : Nat) (65 : Nat)).length
      = 255 := by
    rw [List.length_replicate]
  rw [h255]
  have h3 : run (⟨storeList (store (fun _ => 0) 0 65) 1
      (List.replicate 254 65), fun _ => 0, 255, 0, 0, 0, 0, 0, 0⟩ :
        DecoderState) [10] =
      (⟨store (storeList (store (fun _ => 0) 0 65) 1
        (List.replicate 254 65)) 255 10, fun _ => 0, 0, 0, 0, 0, 0, 0, 0⟩,
       []) := by
    simp only [run]
    rw [proc_byte_line_bypass _ 10 (show (255 : Nat) ≠ 0 by omega)]
    rw [nmea_step_wrap ⟨storeList (store (fun _ => 0) 0 65)
      (0 + 1) (List.replicate 254 65), fun _ => 0, 255, 0, 0, 0, 0, 0, 0⟩ 10
      (show (255 : Nat) + 1 = 256 by omega)]
    rfl
  rw [h3]
  refine ⟨rfl, rfl, ?_⟩
  show store (storeList (store (fun _ => 0) 0 65) 1
    (List.replicate 254 65)) 255 10 255 = 10
  simp [store]

/-- C3 (amended): when no partial NMEA line is pending (`line_pos = 0`), a
byte 0xB5 at WaitSync1 advances the UBX parser to WaitSync2 without touching
the NMEA buffer, and any other byte leaves it at WaitSync1 and is offered to
the NMEA path; but when a partial NMEA line is pending (`line_pos ≠ 0`),
every byte — including 0xB5 — bypasses the UBX parser entirely and goes to
the NMEA path. -/
theorem C3_waitsync1_amended :
    (∀ s : DecoderState, s.ubx_pos = 0 → s.line_pos = 0 →
      (proc_byte s 0xB5).1.ubx_pos = 1 ∧
      (proc_byte s 0xB5).1.line = s.line ∧
      (proc_byte s 0xB5).1.line_pos = 0 ∧
      (proc_byte s 0xB5).2 = []) ∧
    (∀ (s : DecoderState) (ch : Nat), s.ubx_pos = 0 → s.line_pos = 0 →
      ch < 256 → ch ≠ 0xB5 →
      proc_byte s ch = nmea_step s ch) ∧
    (∀ (s : DecoderState) (ch : Nat), s.line_pos ≠ 0 →
      proc_byte s ch = nmea_step s (ch % 256)) := by
  refine ⟨?_, ?_, ?_⟩
  · intro s h0 hl
    obtain ⟨L, U, lp, up, c, i, a, b, n⟩ := s
    dsimp only at h0 hl
    subst h0
    subst hl
    rw [step_sync1]
    exact ⟨rfl, rfl, rfl, rfl⟩
  · intro s ch h0 hl hlt hne
    obtain ⟨L, U, lp, up, c, i, a, b, n⟩ := s
    dsimp only at h0 hl
    subst h0
    subst hl
    exact step_sync1_miss L U c i a b n ch hlt hne
  · intro s ch h
    exact proc_byte_line_bypass s ch h

/-- Witness for C3 (amended): 0xB5 from the reset state advances to
WaitSync2; with one accumulated NMEA byte, a subsequent byte goes to the NMEA
path. -/
theorem C3_waitsync1_amended_witness :
    (proc_byte reset_decoder_state 0xB5).1.ubx_pos = 1 ∧
    proc_byte (run reset_decoder_state [0x41]).1 0xB5 =
      nmea_step (run reset_decoder_state [0x41]).1 (0xB5 % 256) :=
  ⟨(C3_waitsync1_amended.1 reset_decoder_state rfl rfl).1,
   C3_waitsync1_amended.2.2 (run reset_decoder_state [0x41]).1 0xB5
     (by decide)⟩

/-- C4 (amended): a checksum byte (at the CkA or CkB position) that does not
match the accumulated value aborts the frame and returns the parser to
WaitSync1, but the mismatching byte IS re-offered to the NMEA path in the
same tick: `proc_byte` behaves exactly as `nmea_step` on the aborted state,
appending the byte to the NMEA line buffer (here at position 0). -/
theorem C4_mismatch_aborts_and_reoffers :
    ∀ (L U : Nat → Nat) (c i a b n ch : Nat), ch < 256 →
      (ch ≠ a →
        proc_byte ⟨L, U, 0, 6 + n, c, i, a, b, n⟩ ch =
          nmea_step ⟨L, U, 0, 0, c, i, a, b, n⟩ ch ∧
        (proc_byte ⟨L, U, 0, 6 + n, c, i, a, b, n⟩ ch).1.ubx_pos = 0 ∧
        (proc_byte ⟨L, U, 0, 6 + n, c, i, a, b, n⟩ ch).1.line 0 = ch) ∧
      (ch ≠ b →
        proc_byte ⟨L, U, 0, 6 + n + 1, c, i, a, b, n⟩ ch =
          nmea_step ⟨L, U, 0, 0, c, i, a, b, n⟩ ch ∧
        (proc_byte ⟨L, U, 0, 6 + n + 1, c, i, a, b, n⟩ ch).1.ubx_pos = 0 ∧
        (proc_byte ⟨L, U, 0, 6 + n + 1, c, i, a, b, n⟩ ch).1.line 0 = ch) := by
  intro L U c i a b n ch hch
  constructor
  · intro hne
    have he := step_cka_mismatch L U c i a b n ch hch hne
    refine ⟨he, ?_, ?_⟩
    · rw [he, nmea_step_ubx_pos]
    · rw [he]
      exact nmea_step_appends ⟨L, U, 0, 0, c, i, a, b, n⟩ ch
  · intro hne
    have he := step_ckb_mismatch L U c i a b n ch hch hne
    refine ⟨he, ?_, ?_⟩
    · rw [he, nmea_step_ubx_pos]
    · rw [he]
      exact nmea_step_appends ⟨L, U, 0, 0, c, i, a, b, n⟩ ch

/-- Witness for C4 (amended): a wrong CkA byte 0x01 after the frame prefix
B5 62 00 00 00 00 (accumulated ck_a = 0) aborts to WaitSync1 and lands in the
NMEA buffer. -/
theorem C4_mismatch_aborts_and_reoffers_witness :
    proc_byte ⟨fun _ => 0, fun _ => 0, 0, 6 + 0, 0, 0, 0, 0, 0⟩ 1 =
      nmea_step ⟨fun _ => 0, fun _ => 0, 0, 0, 0, 0, 0, 0, 0⟩ 1 ∧
    (proc_byte ⟨fun _ => 0, fun _ => 0, 0, 6 + 0, 0, 0, 0, 0, 0⟩ 1).1.line 0
      = 1 :=
  ⟨((C4_mismatch_aborts_and_reoffers (fun _ => 0) (fun _ => 0) 0 0 0 0 0 1
      (by omega)).1 (by omega)).1,
   ((C4_mismatch_aborts_and_reoffers (fun _ => 0) (fun _ => 0) 0 0 0 0 0 1
      (by omega)).1 (by omega)).2.2⟩

/-- C8 (amended): every byte offered to the NMEA path is appended to the line
buffer at the current position; when the write position reaches the buffer
capacity (256) it silently wraps to 0 — and in that case NO line is handed
over, even when the just-appended byte is a line feed (the wrapped position
fails the `line_pos > 0` check); a line feed at any position below the last
buffer index hands the terminated line to the NMEA collaborator exactly once
and resets the position to 0; any other byte just advances the position. -/
theorem C8_nmea_append_amended :
    ∀ (s : DecoderState) (ch : Nat),
      (nmea_step s ch).1.line s.line_pos = ch ∧
      (s.line_pos + 1 = 256 →
        nmea_step s ch = ({ s with
          line := store s.line s.line_pos ch
          line_pos := 0 }, [])) ∧
      (s.line_pos + 1 < 256 → ch ≠ 10 →
        nmea_step s ch = ({ s with
          line := store s.line s.line_pos ch
          line_pos := s.line_pos + 1 }, [])) ∧
      (s.line_pos + 1 < 256 → ch = 10 →
        (nmea_step s ch).1.line_pos = 0 ∧
        (nmea_step s ch).2 = [Event.nmeaLine (lineString
          (store (store s.line s.line_pos 10) (s.line_pos + 1) 0))]) := by
  intro s ch
  refine ⟨nmea_step_appends s ch, ?_, ?_, ?_⟩
  · intro h
    exact nmea_step_wrap s ch h
  · intro h1 h2
    exact nmea_step_plain s ch h2 h1
  · intro h1 h2
    subst h2
    rw [nmea_step_newline s h1]
    exact ⟨rfl, rfl⟩

/-- Witness for C8 (amended): from the reset state, byte 0x41 is appended and
advances the position; a line feed at position 1 hands over exactly one
line. -/
theorem C8_nmea_append_amended_witness :
    nmea_step reset_decoder_state 65 = ({ reset_decoder_state with
      line := store reset_decoder_state.line 0 65
      line_pos := 1 }, []) ∧
    (nmea_step (run reset_decoder_state [0x41]).1 10).2 =
      [Event.nmeaLine (lineString (store (store
        (run reset_decoder_state [0x41]).1.line
        (run reset_decoder_state [0x41]).1.line_pos 10)
        ((run reset_decoder_state [0x41]).1.line_pos + 1) 0))] :=
  ⟨(C8_nmea_append_amended reset_decoder_state 65).2.2.1 (by decide)
     (by decide),
   ((C8_nmea_append_amended (run reset_decoder_state [0x41]).1 10).2.2.2
     (by decide) rfl).2⟩

lemma run_single (s : DecoderState) (ch : Nat) :
    run s [ch] = proc_byte s ch := by
  simp [run]

lemma nmea_from_zero (L U : Nat → Nat) (c i a b n ch : Nat) (h10 : ch ≠ 10) :
    nmea_step ⟨L, U, 0, 0, c, i, a, b, n⟩ ch =
      (⟨store L 0 ch, U, 1, 0, c, i, a, b, n⟩, []) := by
  rw [nmea_step_plain _ ch h10 (show (0 : Nat) + 1 < 256 by omega)]

/-- C2 (amended): feeding a corrupted frame — good sync bytes, full header and
payload, then a checksum byte that fails the comparison at the CkA position
(first conjunct) or at the CkB position (second conjunct) — immediately
followed by a valid encoded frame dispatches ZERO frames and fires ZERO
NMEA-line callbacks (the run produces no event at all): the mismatching byte
is re-offered to the NMEA line buffer, so the entire following valid frame is
absorbed by the NMEA path.  (Hypotheses: byte ranges; the mismatching byte is
not a line feed; the valid frame contains no line-feed byte and at most 246
payload bytes so the NMEA buffer does not wrap.) -/
theorem C2_resync_amended :
    ∀ (cls msgId : Nat) (p : List Nat) (bad cls2 msgId2 : Nat) (p2 : List Nat),
      cls < 256 → msgId < 256 → (∀ x ∈ p, x < 256) → p.length ≤ 65535 →
      bad < 256 → bad ≠ 10 →
      p2.length ≤ 246 → (10 : Nat) ∉ ubx_encode_send cls2 msgId2 p2 →
      (bad ≠ (ckFold (cls :: msgId :: p.length % 256 ::
          p.length / 256 % 256 :: p)).1 →
        (run reset_decoder_state
          ((([0xB5, 0x62] ++ (cls :: msgId :: p.length % 256 ::
            p.length / 256 % 256 :: p)) ++ [bad]) ++
            ubx_encode_send cls2 msgId2 p2)).2 = []) ∧
      (bad ≠ (ckFold (cls :: msgId :: p.length % 256 ::
          p.length / 256 % 256 :: p)).2 →
        (run reset_decoder_state
          (((([0xB5, 0x62] ++ (cls :: msgId :: p.length % 256 ::
            p.length / 256 % 256 :: p)) ++
            [(ckFold (cls :: msgId :: p.length % 256 ::
              p.length / 256 % 256 :: p)).1]) ++ [bad]) ++
            ubx_encode_send cls2 msgId2 p2)).2 = []) := by
  intro cls msgId p bad cls2 msgId2 p2 hcls hid hp hplen hbad hbad10 hp2len h10
  have hlo : p.length % 256 < 256 := Nat.mod_lt _ (by omega)
  have hhi : p.length / 256 % 256 < 256 := Nat.mod_lt _ (by omega)
  have hlen_eq : p.length % 256 + 256 * (p.length / 256 % 256) = p.length := by
    omega
  have hck : ckFold (cls :: msgId :: p.length % 256 ::
      p.length / 256 % 256 :: p) =
      ckRun (0, 0) (cls :: msgId :: p.length % 256 ::
        p.length / 256 % 256 :: p) := rfl
  have hbounds := ckRun_bounds (cls :: msgId :: p.length % 256 ::
    p.length / 256 % 256 :: p) 0 0 (by omega) (by omega)
  have habsorb : ∀ (line0 : Nat → Nat) (U : Nat → Nat) (c i a b n : Nat),
      run (⟨line0, U, 1, 0, c, i, a, b, n⟩ : DecoderState)
        (ubx_encode_send cls2 msgId2 p2) =
      (⟨storeList line0 1 (ubx_encode_send cls2 msgId2 p2), U,
        1 + (ubx_encode_send cls2 msgId2 p2).length, 0, c, i, a, b, n⟩,
       []) := by
    intro line0 U c i a b n
    exact run_nmea_absorb (ubx_encode_send cls2 msgId2 p2) line0 U 1 0
      c i a b n (by omega)
      (by have := encode_length cls2 msgId2 p2; omega)
      (fun x hx => ⟨encode_bytes_lt cls2 msgId2 p2 x hx,
        fun he => h10 (he ▸ hx)⟩)
  constructor
  · intro hne
    rw [hck] at hne
    rw [show reset_decoder_state =
      (⟨fun _ => 0, fun _ => 0, 0, 0, 0, 0, 0, 0, 0⟩ : DecoderState) from rfl]
    rw [run_append, run_append, run_append, run_header]
    rw [run_body p (fun _ => 0) (fun _ => 0) 0 0 0 0 0 cls msgId
      (p.length % 256) (p.length / 256 % 256) hcls hid hlo hhi hp
      (by omega)]
    rw [hlen_eq, run_single]
    rw [step_cka_mismatch _ _ cls msgId _ _ p.length bad hbad hne]
    rw [nmea_from_zero _ _ cls msgId _ _ p.length bad hbad10]
    rw [habsorb]
    rfl
  · intro hne
    rw [hck] at hne
    rw [hck]
    rw [show reset_decoder_state =
      (⟨fun _ => 0, fun _ => 0, 0, 0, 0, 0, 0, 0, 0⟩ : DecoderState) from rfl]
    rw [run_append, run_append, run_append, run_append, run_header]
    rw [run_body p (fun _ => 0) (fun _ => 0) 0 0 0 0 0 cls msgId
      (p.length % 256) (p.length / 256 % 256) hcls hid hlo hhi hp
      (by omega)]
    rw [hlen_eq]
    simp only [run_single]
    rw [step_cka_match _ _ cls msgId _ _ p.length hbounds.1]
    rw [step_ckb_mismatch _ _ cls msgId _ _ p.length bad hbad hne]
    rw [nmea_from_zero _ _ cls msgId _ _ p.length bad hbad10]
    rw [habsorb]
    rfl

/-- Witness for C2 (amended): the concrete corrupted frame
B5 62 00 00 00 00 01 followed by the valid frame B5 62 00 00 00 00 00 00
produces no event at all. -/
theorem C2_resync_amended_witness :
    (run reset_decoder_state
      [0xB5, 0x62, 0, 0, 0, 0, 1, 0xB5, 0x62, 0, 0, 0, 0, 0, 0]).2 = [] := by
  have h := (C2_resync_amended 0 0 [] 1 0 0 [] (by decide) (by decide)
    (by decide) (by decide) (by decide) (by decide) (by decide)
    (by decide)).1 (by decide)
  have e : ((([0xB5, 0x62] ++ ((0 : Nat) :: 0 :: ([] : List Nat).length % 256 ::
      ([] : List Nat).length / 256 % 256 :: ([] : List Nat))) ++ [1]) ++
      ubx_encode_send 0 0 []) =
      [0xB5, 0x62, 0, 0, 0, 0, 1, 0xB5, 0x62, 0, 0, 0, 0, 0, 0] := by decide
  rw [e] at h
  exact h

lemma flipBit_cons_zero (c : Nat) (t : List Nat) (k : Nat) :
    flipBit (c :: t) 0 k = (c ^^^ (1 <<< k)) :: t := by
  dsimp only [flipBit]
  simp

lemma flipBit_cons_succ (c : Nat) (t : List Nat) (m k : Nat) :
    flipBit (c :: t) (m + 1) k = c :: flipBit t m k := by
  dsimp only [flipBit]
  simp [List.set_cons_succ, List.getD_cons_succ]

lemma flipBit_cons2 (x y : Nat) (l : List Nat) (m k : Nat) :
    flipBit (x :: y :: l) (2 + m) k = x :: y :: flipBit l m k := by
  rw [show 2 + m = m + 1 + 1 from by omega]
  rw [flipBit_cons_succ, flipBit_cons_succ]

lemma flipBit_append_left (l r : List Nat) (m k : Nat) (h : m < l.length) :
    flipBit (l ++ r) m k = flipBit l m k ++ r := by
  dsimp only [flipBit]
  rw [List.getD_append l r 0 m h, List.set_append, if_pos h]

lemma flipBit_append_right (l r : List Nat) (m k : Nat) (h : l.length ≤ m) :
    flipBit (l ++ r) m k = l ++ flipBit r (m - l.length) k := by
  dsimp only [flipBit]
  rw [List.getD_append_right l r 0 m h, List.set_append, if_neg (by omega)]

lemma ck_fst_ne_of (body body' : List Nat) (x y : Nat)
    (hx : x < 256) (hy : y < 256) (hxy : x ≠ y)
    (hsum : body'.sum + x = body.sum + y) :
    (ckRun (0, 0) body').1 ≠ (ckRun (0, 0) body).1 := by
  rw [ckRun_fst body' 0 0 (by omega), ckRun_fst body 0 0 (by omega)]
  simp only [Nat.zero_add]
  intro h
  omega

lemma numDispatch_run_append (xs ys : List Nat) (s : DecoderState) :
    numDispatch (run s (xs ++ ys)).2 =
      numDispatch (run s xs).2 + numDispatch (run (run s xs).1 ys).2 := by
  rw [run_append]
  exact numDispatch_append _ _

lemma no_dispatch_cka (cs is lo hi : Nat) (pp : List Nat) (A B : Nat)
    (hc : cs < 256) (hi2 : is < 256) (hlo : lo < 256) (hhi : hi < 256)
    (hp : ∀ x ∈ pp, x < 256) (hlen : pp.length = lo + 256 * hi)
    (hA : A < 256)
    (hne : A ≠ (ckRun (0, 0) (cs :: is :: lo :: hi :: pp)).1) :
    numDispatch (run reset_decoder_state
      (0xB5 :: 0x62 :: ((cs :: is :: lo :: hi :: pp) ++ [A, B]))).2 = 0 := by
  rw [show (0xB5 :: 0x62 :: ((cs :: is :: lo :: hi :: pp) ++ [A, B])) =
    [0xB5, 0x62] ++ ((cs :: is :: lo :: hi :: pp) ++ [A, B]) from rfl]
  rw [show reset_decoder_state =
    (⟨fun _ => 0, fun _ => 0, 0, 0, 0, 0, 0, 0, 0⟩ : DecoderState) from rfl]
  rw [numDispatch_run_append, numDispatch_run_append, run_header]
  rw [run_body pp (fun _ => 0) (fun _ => 0) 0 0 0 0 0 cs is lo hi
    hc hi2 hlo hhi hp (by omega)]
  rw [← hlen]
  simp only [run]
  rw [step_cka_mismatch _ _ cs is _ _ pp.length A hA hne]
  rw [numDispatch_append, numDispatch_append, numDispatch_nmea_step]
  rw [proc_byte_no_dispatch_at_sync1 _ B (by rw [nmea_step_ubx_pos])]
  rfl

lemma no_dispatch_ckb (cs is lo hi : Nat) (pp : List Nat) (B : Nat)
    (hc : cs < 256) (hi2 : is < 256) (hlo : lo < 256) (hhi : hi < 256)
    (hp : ∀ x ∈ pp, x < 256) (hlen : pp.length = lo + 256 * hi)
    (hB : B < 256)
    (hne : B ≠ (ckRun (0, 0) (cs :: is :: lo :: hi :: pp)).2) :
    numDispatch (run reset_decoder_state
      (0xB5 :: 0x62 :: ((cs :: is :: lo :: hi :: pp) ++
        [(ckRun (0, 0) (cs :: is :: lo :: hi :: pp)).1, B]))).2 = 0 := by
  rw [show (0xB5 :: 0x62 :: ((cs :: is :: lo :: hi :: pp) ++
      [(ckRun (0, 0) (cs :: is :: lo :: hi :: pp)).1, B])) =
    [0xB5, 0x62] ++ ((cs :: is :: lo :: hi :: pp) ++
      [(ckRun (0, 0) (cs :: is :: lo :: hi :: pp)).1, B]) from rfl]
  rw [show reset_decoder_state =
    (⟨fun _ => 0, fun _ => 0, 0, 0, 0, 0, 0, 0, 0⟩ : DecoderState) from rfl]
  rw [numDispatch_run_append, numDispatch_run_append, run_header]
  rw [run_body pp (fun _ => 0) (fun _ => 0) 0 0 0 0 0 cs is lo hi
    hc hi2 hlo hhi hp (by omega)]
  rw [← hlen]
  simp only [run]
  rw [step_cka_match _ _ cs is _ _ pp.length
    (ckRun_bounds (cs :: is :: lo :: hi :: pp) 0 0 (by omega) (by omega)).1]
  rw [step_ckb_mismatch _ _ cs is _ _ pp.length B hB hne]
  rw [numDispatch_append, numDispatch_append, numDispatch_nmea_step]
  rfl

/-- C9 (amended): for every frame produced by the encoder and every
single-bit modification at a byte position other than the two sync bytes AND
other than the two length bytes (indices 4 and 5) — i.e. at the class, id,
payload or checksum bytes — checksum validation fails: feeding the modified
frame to a demultiplexer in the reset state dispatches no frame.  (Flipping a
length byte can instead reshape the parse and dispatch a different frame, as
the counterexample shows.) -/
theorem C9_bitflip_no_dispatch_amended :
    ∀ (cls msgId : Nat) (p : List Nat) (j k : Nat),
      cls < 256 → msgId < 256 → (∀ x ∈ p, x < 256) → p.length ≤ 65535 →
      2 ≤ j → j ≠ 4 → j ≠ 5 → j < 8 + p.length → k < 8 →
      numDispatch (run reset_decoder_state
        (flipBit (ubx_encode_send cls msgId p) j k)).2 = 0 := by
  intro cls msgId p j k hcls hid hp hplen hj2 hj4 hj5 hjlt hk
  have hlo : p.length % 256 < 256 := Nat.mod_lt _ (by omega)
  have hhi : p.length / 256 % 256 < 256 := Nat.mod_lt _ (by omega)
  have hlen_eq : p.length % 256 + 256 * (p.length / 256 % 256) = p.length := by
    omega
  have hbody_len : (cls :: msgId :: p.length % 256 ::
      p.length / 256 % 256 :: p).length = 4 + p.length := by
    simp only [List.length_cons]
    omega
  have hbounds := ckRun_bounds (cls :: msgId :: p.length % 256 ::
    p.length / 256 % 256 :: p) 0 0 (by omega) (by omega)
  have hframe : ubx_encode_send cls msgId p =
      0xB5 :: 0x62 :: ((cls :: msgId :: p.length % 256 ::
        p.length / 256 % 256 :: p) ++
        [(ckRun (0, 0) (cls :: msgId :: p.length % 256 ::
          p.length / 256 % 256 :: p)).1,
         (ckRun (0, 0) (cls :: msgId :: p.length % 256 ::
          p.length / 256 % 256 :: p)).2]) := by
    dsimp only [ubx_encode_send, ckFold, ckRun]
    rw [map_mod_self p hp, Nat.mod_eq_of_lt hcls, Nat.mod_eq_of_lt hid]
    simp [List.cons_append, List.append_assoc]
  rw [hframe]
  obtain ⟨m, rfl⟩ : ∃ m, j = 2 + m := ⟨j - 2, by omega⟩
  rw [flipBit_cons2]
  have hm : m < 4 + p.length ∨ m = 4 + p.length ∨ m = 5 + p.length := by
    omega
  rcases hm with hm | hm | hm
  · -- bit flip inside class / id / payload
    rw [flipBit_append_left _ _ m k (by rw [hbody_len]; omega)]
    have hm2 : m = 0 ∨ m = 1 ∨ (4 ≤ m ∧ m - 4 < p.length) := by
      omega
    rcases hm2 with rfl | rfl | ⟨hm4, hm'lt⟩
    · rw [flipBit_cons_zero]
      refine no_dispatch_cka (cls ^^^ (1 <<< k)) msgId (p.length % 256)
        (p.length / 256 % 256) p _ _ (xor_byte_lt cls hcls k hk) hid hlo hhi
        hp (by omega) hbounds.1 ?_
      refine ck_fst_ne_of _ _ (cls ^^^ (1 <<< k)) cls
        (xor_byte_lt cls hcls k hk) hcls (xor_byte_ne cls hcls k hk) ?_
      simp only [List.sum_cons]
      omega
    · rw [flipBit_cons_succ, flipBit_cons_zero]
      refine no_dispatch_cka cls (msgId ^^^ (1 <<< k)) (p.length % 256)
        (p.length / 256 % 256) p _ _ hcls (xor_byte_lt msgId hid k hk) hlo hhi
        hp (by omega) hbounds.1 ?_
      refine ck_fst_ne_of _ _ (msgId ^^^ (1 <<< k)) msgId
        (xor_byte_lt msgId hid k hk) hid (xor_byte_ne msgId hid k hk) ?_
      simp only [List.sum_cons]
      omega
    · obtain ⟨m', rfl⟩ : ∃ m', m = 4 + m' := ⟨m - 4, by omega⟩
      have hm' : m' < p.length := by omega
      have hget : p.getD m' 0 < 256 := by
        rw [List.getD_eq_getElem p 0 hm']
        exact hp _ (p.getElem_mem hm')
      rw [show (4 + m' : Nat) = m' + 1 + 1 + 1 + 1 from by omega,
        flipBit_cons_succ, flipBit_cons_succ, flipBit_cons_succ,
        flipBit_cons_succ]
      have hsum := sum_set p m' (p.getD m' 0 ^^^ (1 <<< k)) hm'
      refine no_dispatch_cka cls msgId (p.length % 256)
        (p.length / 256 % 256) (flipBit p m' k) _ _ hcls hid hlo hhi
        ?_ ?_ hbounds.1 ?_
      · intro x hx
        rcases List.mem_or_eq_of_mem_set hx with hx' | rfl
        · exact hp x hx'
        · exact xor_byte_lt _ hget k hk
      · show (p.set m' (p.getD m' 0 ^^^ (1 <<< k))).length = _
        rw [List.length_set]
        omega
      · refine ck_fst_ne_of _ _ (p.getD m' 0 ^^^ (1 <<< k)) (p.getD m' 0)
          (xor_byte_lt _ hget k hk) hget (xor_byte_ne _ hget k hk) ?_
        have hfb : flipBit p m' k =
            p.set m' (p.getD m' 0 ^^^ (1 <<< k)) := rfl
        rw [hfb]
        simp only [List.sum_cons]
        omega
  · -- bit flip on the CkA byte
    rw [flipBit_append_right _ _ m k (by rw [hbody_len]; omega)]
    rw [show m - (cls :: msgId :: p.length % 256 ::
      p.length / 256 % 256 :: p).length = 0 from by rw [hbody_len]; omega]
    rw [flipBit_cons_zero]
    exact no_dispatch_cka cls msgId (p.length % 256) (p.length / 256 % 256) p
      _ _ hcls hid hlo hhi hp (by omega)
      (xor_byte_lt _ hbounds.1 k hk) (xor_byte_ne _ hbounds.1 k hk)
  · -- bit flip on the CkB byte
    rw [flipBit_append_right _ _ m k (by rw [hbody_len]; omega)]
    rw [show m - (cls :: msgId :: p.length % 256 ::
      p.length / 256 % 256 :: p).length = 1 from by rw [hbody_len]; omega]
    rw [flipBit_cons_succ, flipBit_cons_zero]
    exact no_dispatch_ckb cls msgId (p.length % 256) (p.length / 256 % 256) p
      _ hcls hid hlo hhi hp (by omega)
      (xor_byte_lt _ hbounds.2 k hk) (xor_byte_ne _ hbounds.2 k hk)

/-- Witness for C9 (amended): flipping bit 0 of the class byte (index 2) of
the encoded frame for class 6, id 1, payload [1] yields no dispatch. -/
theorem C9_bitflip_no_dispatch_amended_witness :
    numDispatch (run reset_decoder_state
      (flipBit (ubx_encode_send 6 1 [1]) 2 0)).2 = 0 :=
  C9_bitflip_no_dispatch_amended 6 1 [1] 2 0 (by decide) (by decide)
    (by decide) (by decide) (by decide) (by decide) (by decide) (by decide)
    (by decide)
